import Mathlib

/-!
Parser helpers of fcc (`src/parser-helpers.c`)

A shallow embedding of the token cursor, the token predicates, the match
primitives and the diagnostic functions of `parser-helpers.c`.

The C functions mutate a `parserCtx` through a pointer; here every function
takes the context and returns the new one, together with its C return value
when it has one.  The two output channels the functions write to (standard
output through `printf`/`puts`, the debug trace through `debugMsg`) are kept
as two fields of the context, so that "what was printed" is observable.

The collaborators that `parser-helpers.c` only calls (the lexer, the symbol
table, the debug module) are modelled from the specification; each such
definition says so in its doc comment.
-/

namespace Fcc

/-! ## Types declared in headers -/

/-- Modelled from the spec: `tokenLocation` (lexer.h), the `(line, column)` pair
printed with `%d:%d` by `error`. -/
structure tokenLocation where
  line : Int
  lineChar : Int
deriving DecidableEq, Repr

/-- Modelled from the spec: the enum `tokenTag` (lexer.h).  A C enum is an
integer, and `tokenTagGetStr` has a branch for values outside the eight named
kinds, so the tag is kept as an integer code. -/
abbrev tokenTag := Int

/-- Modelled from the spec: the eight token kinds, numbered in the order in
which `tokenTagGetStr` tests them.  Only their distinctness is ever used. -/
def tokenUndefined : tokenTag := 0
def tokenOther : tokenTag := 1
def tokenEOF : tokenTag := 2
def tokenKeyword : tokenTag := 3
def tokenIdent : tokenTag := 4
def tokenInt : tokenTag := 5
def tokenStr : tokenTag := 6
def tokenChar : tokenTag := 7

/-- Modelled from the spec: the enum `keywordTag` (lexer.h): the sentinel
`keywordUndefined` carried by every non-keyword token, the twelve declaration
keywords that `tokenIsDecl` names, and the statement keywords of the language. -/
inductive keywordTag
  | keywordUndefined
  | keywordConst | keywordAuto | keywordStatic | keywordExtern | keywordTypedef
  | keywordStruct | keywordUnion | keywordEnum
  | keywordVoid | keywordBool | keywordChar | keywordInt
  | keywordIf | keywordElse | keywordWhile | keywordDo | keywordFor
  | keywordReturn | keywordBreak | keywordContinue | keywordSizeof
deriving DecidableEq, Repr

open keywordTag

/-- Modelled from the spec: `keywordTagGetStr` (lexer.c), the display name of a
keyword, which is its spelling. -/
def keywordTagGetStr : keywordTag → String
  | keywordUndefined => "<undefined>"
  | keywordConst => "const"
  | keywordAuto => "auto"
  | keywordStatic => "static"
  | keywordExtern => "extern"
  | keywordTypedef => "typedef"
  | keywordStruct => "struct"
  | keywordUnion => "union"
  | keywordEnum => "enum"
  | keywordVoid => "void"
  | keywordBool => "bool"
  | keywordChar => "char"
  | keywordInt => "int"
  | keywordIf => "if"
  | keywordElse => "else"
  | keywordWhile => "while"
  | keywordDo => "do"
  | keywordFor => "for"
  | keywordReturn => "return"
  | keywordBreak => "break"
  | keywordContinue => "continue"
  | keywordSizeof => "sizeof"

/-- Modelled from the spec: the enum `symTag` (sym.h), the declaration kind of a
symbol.  `parser-helpers.c` names `symId` (ordinary value) and `symParam`
(parameter); the other kinds are the type-like ones of the spec. -/
inductive symTag
  | symUndefined | symScope | symModuleLink
  | symType | symTypedef | symStruct | symUnion | symEnum | symEnumConstant
  | symId | symParam
deriving DecidableEq, Repr

open symTag

/-- Modelled from the spec: an AST node (ast.h); only its `location` is read here. -/
structure ast where
  location : tokenLocation
deriving DecidableEq, Repr

/-- Modelled from the spec: a symbol (sym.h): declaration kind, identifier, the
ordered declaration sites, and the implementation site (a null pointer is
`none`). -/
structure sym where
  tag : symTag
  ident : String
  decls : List ast
  impl : Option ast
deriving DecidableEq, Repr

/-- Modelled from the spec: what the `sym*` held in `ctx->scope` gives access
to: the symbols of the bound scope, followed by those of each enclosing scope,
innermost first. -/
abbrev symScope := List (List sym)

/-- Modelled from the spec: `symFind` (sym.c), `lookup(scope, name)` with
enclosing-scope chaining: the first symbol of that name in the bound scope,
otherwise in the nearest enclosing scope that has one. -/
def symFind : symScope → String → Option sym
  | [], _ => none
  | children :: parents, Look =>
    match children.find? (fun Current => Current.ident == Look) with
    | some Found => some Found
    | none => symFind parents Look

/-- Modelled from the spec: `vectorGet` (vector.c): element `n`, or a null
pointer when there is none. -/
def vectorGet {α : Type} (v : List α) (n : Nat) : Option α := v[n]?

/-! ## The lexer -/

/-- One token of the input as the lexer will deliver it: where it starts, its
kind, its keyword identity and its raw text. -/
structure lexToken where
  location : tokenLocation
  token : tokenTag
  keyword : keywordTag
  buffer : String
deriving DecidableEq, Repr

/-- Modelled from the spec: `lexerCtx` (lexer.h).  `token`, `keyword` and
`buffer` are the fields `parser-helpers.c` reads: the current token record.
`pending` is the rest of the input, already cut into tokens, and `eofLocation`
is where the input ends. -/
structure lexerCtx where
  token : tokenTag
  keyword : keywordTag
  buffer : String
  pending : List lexToken
  eofLocation : tokenLocation
deriving DecidableEq, Repr

/-- Modelled from the spec: `lexerNext` (lexer.c), `advance() -> newLocation`:
the next token of the input becomes the current one and its position is
returned; when the input is exhausted the end-of-file token is delivered, again
and again. -/
def lexerNext (lexer : lexerCtx) : lexerCtx × tokenLocation :=
  match lexer.pending with
  | [] =>
    ({ lexer with token := tokenEOF, keyword := keywordUndefined, buffer := "" },
     lexer.eofLocation)
  | next :: rest =>
    ({ lexer with token := next.token, keyword := next.keyword,
                  buffer := next.buffer, pending := rest },
     next.location)

/-- The token that follows the current one in the input: the head of the
pending tokens, or the end-of-file token at the end of the input. -/
def lexerFollowing (lexer : lexerCtx) : lexToken :=
  match lexer.pending with
  | [] => { location := lexer.eofLocation, token := tokenEOF,
            keyword := keywordUndefined, buffer := "" }
  | next :: _ => next

/-! ## The parser context -/

/-- Modelled from the spec: what the debug module (debug.c) is asked to record. -/
inductive debugEvent
  | msg (text : String)
  | errorUnhandled (functionName className item : String)
deriving DecidableEq, Repr

/-- Modelled from the spec: `parserCtx` (parser.h): `lexer`, `location`, `scope`
and `errors` are the C fields.  `errors` counts the increments of `ctx->errors`
as an unbounded integer, as the spec has it; the value the 32-bit C field
holds is that count reduced to 32 bits, `errorsField` below.
`output` is what has been written to standard output and `debugLog` what has
been handed to the debug module. -/
structure parserCtx where
  lexer : lexerCtx
  location : tokenLocation
  scope : symScope
  errors : Int
  output : String
  debugLog : List debugEvent
deriving DecidableEq, Repr

/-- Modelled from the spec: `debugWait` (debug.c), the optional pause hook: it
prints nothing and changes nothing. -/
def debugWait (ctx : parserCtx) : parserCtx := ctx

/-- Modelled from the spec: `debugMsg` (debug.c): the formatted line goes to the
debug trace, never to standard output. -/
def debugMsg (ctx : parserCtx) (text : String) : parserCtx :=
  { ctx with debugLog := ctx.debugLog ++ [debugEvent.msg text] }

/-- The text `printf` produces for `%d`. -/
def fmtInt (n : Int) : String := toString n

/-! ## SCOPE -/

def scopeSet (ctx : parserCtx) (Scope : symScope) : symScope × parserCtx :=
  let Old := ctx.scope
  (Old, { ctx with scope := Scope })

/-! ## ERROR MESSAGING -/

/-- The C function `error`; `message` is the text `vprintf(format, args)` writes.
`ctx->errors++` adds one to the count; what the 32-bit field then holds is
`errorsField` of the result. -/
def error (ctx : parserCtx) (message : String) : parserCtx :=
  let ctx := { ctx with output := ctx.output ++
    ("error(" ++ fmtInt ctx.location.line ++ ":" ++ fmtInt ctx.location.lineChar ++ "): ") }
  let ctx := { ctx with output := ctx.output ++ message }
  let ctx := { ctx with output := ctx.output ++ ".\n" }
  let ctx := { ctx with errors := ctx.errors + 1 }
  debugWait ctx

def errorExpected (ctx : parserCtx) (Expected : String) : parserCtx :=
  error ctx ("expected " ++ Expected ++ ", found '" ++ ctx.lexer.buffer ++ "'")

def errorUndefSym (ctx : parserCtx) : parserCtx :=
  error ctx ("undefined symbol '" ++ ctx.lexer.buffer ++ "'")

def errorUndefType (ctx : parserCtx) : parserCtx :=
  error ctx ("undefined symbol '" ++ ctx.lexer.buffer ++ "', expected type")

def errorIllegalOutside (ctx : parserCtx) (what «where» : String) : parserCtx :=
  error ctx ("illegal " ++ what ++ " outside of " ++ «where»)

/-- The C function `errorRedeclaredSymAs`.  `symTagGetStr` (sym.c) is a
parameter.  `first` is dereferenced without a check: when the symbol has no
declaration the call has no defined result (`none`). -/
def errorRedeclaredSymAs (symTagGetStr : symTag → String)
    (ctx : parserCtx) (Symbol : sym) (tag : symTag) : Option parserCtx :=
  match vectorGet Symbol.decls 0 with
  | none => none
  | some first =>
    some (error ctx
      ("'" ++ Symbol.ident ++ "' redeclared as " ++ symTagGetStr tag ++ ".\n"
        ++ "     (" ++ fmtInt first.location.line ++ ":" ++ fmtInt first.location.lineChar
        ++ "): first declaration here as " ++ symTagGetStr Symbol.tag))

/-- The C function `errorReimplementedSym`.  `symTagGetStr` (sym.c) is a
parameter.  `Symbol->impl` is dereferenced without a check: when it is null the
call has no defined result (`none`). -/
def errorReimplementedSym (symTagGetStr : symTag → String)
    (ctx : parserCtx) (Symbol : sym) : Option parserCtx :=
  match Symbol.impl with
  | none => none
  | some impl =>
    some (error ctx
      ((if Symbol.tag = symId then "function" else symTagGetStr Symbol.tag)
        ++ " '" ++ Symbol.ident ++ "' reimplemented.\n"
        ++ "     (" ++ fmtInt impl.location.line ++ ":" ++ fmtInt impl.location.lineChar
        ++ "): first implementation here"))

/-! ## TOKEN HANDLING -/

/-- `!strcmp(ctx->lexer->buffer, Match)`: the two texts are equal. -/
def tokenIs (ctx : parserCtx) (Match : String) : Bool :=
  ctx.lexer.buffer == Match

def tokenIsKeyword (ctx : parserCtx) (keyword : keywordTag) : Bool :=
  ctx.lexer.keyword == keyword

def tokenIsIdent (ctx : parserCtx) : Bool :=
  ctx.lexer.token == tokenIdent

def tokenIsInt (ctx : parserCtx) : Bool :=
  ctx.lexer.token == tokenInt

def tokenIsString (ctx : parserCtx) : Bool :=
  ctx.lexer.token == tokenStr

def tokenIsDecl (ctx : parserCtx) : Bool :=
  let Symbol := symFind ctx.scope ctx.lexer.buffer
  (match Symbol with
   | some Symbol => Symbol.tag != symId && Symbol.tag != symParam
   | none => false)
  || tokenIsKeyword ctx keywordConst
  || tokenIsKeyword ctx keywordAuto || tokenIsKeyword ctx keywordStatic
  || tokenIsKeyword ctx keywordExtern || tokenIsKeyword ctx keywordTypedef
  || tokenIsKeyword ctx keywordStruct || tokenIsKeyword ctx keywordUnion
  || tokenIsKeyword ctx keywordEnum
  || tokenIsKeyword ctx keywordVoid || tokenIsKeyword ctx keywordBool
  || tokenIsKeyword ctx keywordChar || tokenIsKeyword ctx keywordInt

def tokenNext (ctx : parserCtx) : parserCtx :=
  let r := lexerNext ctx.lexer
  { ctx with lexer := r.1, location := r.2 }

def tokenSkipMaybe (ctx : parserCtx) : parserCtx :=
  if !tokenIs ctx ")" && !tokenIs ctx "]" && !tokenIs ctx "\x7d" then
    tokenNext ctx
  else
    ctx

def tokenMatch (ctx : parserCtx) : parserCtx :=
  let ctx := debugMsg ctx
    ("matched(" ++ fmtInt ctx.location.line ++ ":" ++ fmtInt ctx.location.lineChar
      ++ "): '" ++ ctx.lexer.buffer ++ "'")
  tokenNext ctx

def tokenDupMatch (ctx : parserCtx) : String × parserCtx :=
  let Old := ctx.lexer.buffer
  let ctx := tokenMatch ctx
  (Old, ctx)

/-- The C function `tokenTagGetStr`: the display name, and what the fallback
branch hands to `debugErrorUnhandled`. -/
def tokenTagGetStr (tag : tokenTag) : String × List debugEvent :=
  if tag = tokenUndefined then ("<undefined>", [])
  else if tag = tokenOther then ("other", [])
  else if tag = tokenEOF then ("end of file", [])
  else if tag = tokenKeyword then ("keyword", [])
  else if tag = tokenIdent then ("identifier", [])
  else if tag = tokenInt then ("integer", [])
  else if tag = tokenStr then ("string", [])
  else if tag = tokenChar then ("character", [])
  else
    let str := fmtInt tag
    ("<unhandled>", [debugEvent.errorUnhandled "tokenTagGetStr" "token tag" str])

def tokenMatchKeyword (ctx : parserCtx) (keyword : keywordTag) : parserCtx :=
  if tokenIsKeyword ctx keyword then
    tokenMatch ctx
  else
    let kw := keywordTagGetStr keyword
    let kwInQuotes := "'" ++ kw ++ "'"
    let ctx := errorExpected ctx kwInQuotes
    tokenSkipMaybe ctx

def tokenTryMatchKeyword (ctx : parserCtx) (keyword : keywordTag) : Bool × parserCtx :=
  if tokenIsKeyword ctx keyword then
    let ctx := tokenMatch ctx
    (true, ctx)
  else
    (false, ctx)

def tokenMatchToken (ctx : parserCtx) (Match : tokenTag) : parserCtx :=
  if ctx.lexer.token = Match then
    tokenMatch ctx
  else
    let name := tokenTagGetStr Match
    let ctx := { ctx with debugLog := ctx.debugLog ++ name.2 }
    let ctx := errorExpected ctx name.1
    tokenSkipMaybe ctx

def tokenMatchStr (ctx : parserCtx) (Match : String) : parserCtx :=
  if tokenIs ctx Match then
    tokenMatch ctx
  else
    let expectedInQuotes := "'" ++ Match ++ "'"
    let ctx := errorExpected ctx expectedInQuotes
    tokenSkipMaybe ctx

def tokenTryMatchStr (ctx : parserCtx) (Match : String) : Bool × parserCtx :=
  if tokenIs ctx Match then
    let ctx := tokenMatch ctx
    (true, ctx)
  else
    (false, ctx)

/-! ## The C library function `atoi` -/

/-- C library `isspace` in the "C" locale: space, and `\t \n \v \f \r`. -/
def isspace (c : Char) : Bool :=
  c.toNat == 32 || (9 ≤ c.toNat && c.toNat ≤ 13)

/-- C library `isdigit`. -/
def isdigit (c : Char) : Bool :=
  48 ≤ c.toNat && c.toNat ≤ 57

/-- The value of the longest run of decimal digits at the front of the text,
continuing from `acc`. -/
def atoiDigits : List Char → Int → Int
  | [], acc => acc
  | c :: cs, acc =>
    if isdigit c then atoiDigits cs (acc * 10 + ((c.toNat : Int) - 48)) else acc

/-- The value an `int` holds after a conversion from the integer `v`
(two's complement, 32 bits). -/
def toInt32 (v : Int) : Int := (v + 2 ^ 31) % 2 ^ 32 - 2 ^ 31

/-- C library `atoi`: leading white space is skipped, an optional sign is read,
then the longest run of decimal digits; text with no digits there gives 0. -/
def atoi (nptr : String) : Int :=
  match nptr.toList.dropWhile isspace with
  | [] => 0
  | c :: cs =>
    if c = '-' then toInt32 (- atoiDigits cs 0)
    else if c = '+' then toInt32 (atoiDigits cs 0)
    else toInt32 (atoiDigits (c :: cs) 0)

/-! ## TOKEN HANDLING, continued -/

def tokenMatchInt (ctx : parserCtx) : Int × parserCtx :=
  let ret := atoi ctx.lexer.buffer
  let ctx := tokenMatchToken ctx tokenInt
  (ret, ctx)

def tokenMatchIdent (ctx : parserCtx) : String × parserCtx :=
  let Old := ctx.lexer.buffer
  let ctx := tokenMatchToken ctx tokenIdent
  (Old, ctx)

/-! ## Sequences of match primitives -/

/-- One call of a match primitive, with its argument. -/
inductive matchPrimitive
  | matchKeyword (keyword : keywordTag)
  | tryMatchKeyword (keyword : keywordTag)
  | matchToken (Match : tokenTag)
  | matchStr (Match : String)
  | tryMatchStr (Match : String)
  | matchInt
  | matchIdent
deriving DecidableEq, Repr

/-- The condition each primitive tests on the current token. -/
def matchPrimitive.holds : matchPrimitive → parserCtx → Bool
  | .matchKeyword keyword, ctx => tokenIsKeyword ctx keyword
  | .tryMatchKeyword keyword, ctx => tokenIsKeyword ctx keyword
  | .matchToken Match, ctx => ctx.lexer.token == Match
  | .matchStr Match, ctx => tokenIs ctx Match
  | .tryMatchStr Match, ctx => tokenIs ctx Match
  | .matchInt, ctx => ctx.lexer.token == tokenInt
  | .matchIdent, ctx => ctx.lexer.token == tokenIdent

/-- The context after the call (the C return value is dropped). -/
def matchPrimitive.call : matchPrimitive → parserCtx → parserCtx
  | .matchKeyword keyword, ctx => tokenMatchKeyword ctx keyword
  | .tryMatchKeyword keyword, ctx => (tokenTryMatchKeyword ctx keyword).2
  | .matchToken Match, ctx => tokenMatchToken ctx Match
  | .matchStr Match, ctx => tokenMatchStr ctx Match
  | .tryMatchStr Match, ctx => (tokenTryMatchStr ctx Match).2
  | .matchInt, ctx => (tokenMatchInt ctx).2
  | .matchIdent, ctx => (tokenMatchIdent ctx).2

/-- The calls of the list, one after the other. -/
def callAll : List matchPrimitive → parserCtx → parserCtx
  | [], ctx => ctx
  | p :: ps, ctx => callAll ps (p.call ctx)

/-- Every call of the list finds its condition true on the token that is
current when it is made. -/
def allHold : List matchPrimitive → parserCtx → Bool
  | [], _ => true
  | p :: ps, ctx => p.holds ctx && allHold ps (p.call ctx)

/-- The lexer after one `lexerNext`. -/
def lexerAdvance (lexer : lexerCtx) : lexerCtx := (lexerNext lexer).1

/-- The current token's raw text is one of the three closing brackets, the
tokens `tokenSkipMaybe` does not skip. -/
def atClosing (ctx : parserCtx) : Prop :=
  ctx.lexer.buffer = ")" ∨ ctx.lexer.buffer = "]" ∨ ctx.lexer.buffer = "\x7d"

instance (ctx : parserCtx) : Decidable (atClosing ctx) := by
  unfold atClosing
  infer_instance

/-- The line `error` writes for `message` when the cursor is at `location`:
`error(<line>:<col>): <message>.` and a newline. -/
def errorLine (location : tokenLocation) (message : String) : String :=
  "error(" ++ fmtInt location.line ++ ":" ++ fmtInt location.lineChar ++ "): "
    ++ message ++ ".\n"

/-! ## Example inputs -/

/-- A context on the first token of `stream`, with nothing reported yet. -/
def parserStart (stream : List lexToken) (eofLocation : tokenLocation)
    (scope : symScope) : parserCtx :=
  tokenNext
    { lexer := { token := tokenUndefined, keyword := keywordUndefined, buffer := "",
                 pending := stream, eofLocation := eofLocation }
      location := { line := 0, lineChar := 0 }
      scope := scope
      errors := 0
      output := ""
      debugLog := [] }

/-- The stream `foo ( )` on line 1. -/
def streamFooParens : List lexToken :=
  [ { location := { line := 1, lineChar := 1 }, token := tokenIdent,
      keyword := keywordUndefined, buffer := "foo" },
    { location := { line := 1, lineChar := 5 }, token := tokenOther,
      keyword := keywordUndefined, buffer := "(" },
    { location := { line := 1, lineChar := 6 }, token := tokenOther,
      keyword := keywordUndefined, buffer := ")" } ]

/-- The stream `int x ;` on line 1. -/
def streamIntXSemi : List lexToken :=
  [ { location := { line := 1, lineChar := 1 }, token := tokenKeyword,
      keyword := keywordInt, buffer := "int" },
    { location := { line := 1, lineChar := 5 }, token := tokenIdent,
      keyword := keywordUndefined, buffer := "x" },
    { location := { line := 1, lineChar := 6 }, token := tokenOther,
      keyword := keywordUndefined, buffer := ";" } ]

/-- The parser on `foo`, first token of `foo ( )`, in an empty scope. -/
def ctxFooParens : parserCtx :=
  parserStart streamFooParens { line := 1, lineChar := 7 } [[]]

/-- The parser on `int`, first token of `int x ;`, in an empty scope. -/
def ctxIntXSemi : parserCtx :=
  parserStart streamIntXSemi { line := 1, lineChar := 7 } [[]]

/-- The parser on `)`, last token of `foo ( )`. -/
def ctxAtClosingParen : parserCtx :=
  tokenNext (tokenNext ctxFooParens)

/-- The twelve keywords `tokenIsDecl` tests for. -/
def declKeywords : List keywordTag :=
  [keywordConst, keywordAuto, keywordStatic, keywordExtern, keywordTypedef,
   keywordStruct, keywordUnion, keywordEnum,
   keywordVoid, keywordBool, keywordChar, keywordInt]

/-- The parser on the single identifier token `name`, with `scope` bound. -/
def ctxOnIdent (name : String) (scope : symScope) : parserCtx :=
  parserStart
    [ { location := { line := 1, lineChar := 1 }, token := tokenIdent,
        keyword := keywordUndefined, buffer := name } ]
    { line := 1, lineChar := 1 + name.length } scope

/-- A symbol of the given kind and name, declared once at line 3, without
implementation. -/
def symDeclared (tag : symTag) (ident : String) : sym :=
  { tag := tag, ident := ident,
    decls := [ { location := { line := 3, lineChar := 1 } } ], impl := none }

/-- The parser on the keyword `int`, in a scope that binds `int` as an ordinary
value and as a parameter. -/
def ctxIntShadowed : parserCtx :=
  parserStart streamIntXSemi { line := 1, lineChar := 7 }
    [[symDeclared symId "int"], [symDeclared symParam "int"]]

/-- The parser on `(`, second token of `foo ( )`. -/
def ctxAtOpenParen : parserCtx :=
  tokenNext ctxFooParens

/-- The parser on `x`, second token of `int x ;`. -/
def ctxAtX : parserCtx :=
  tokenNext ctxIntXSemi

/-- The text has no number for `atoi` to read: it is empty, or its first
character is neither white space, nor a sign, nor a digit. -/
def noNumberAhead (text : String) : Prop :=
  ∀ c, text.toList.head? = some c →
    isspace c = false ∧ c ≠ '-' ∧ c ≠ '+' ∧ isdigit c = false

instance (text : String) : Decidable (noNumberAhead text) := by
  unfold noNumberAhead
  cases text.toList.head? with
  | none => exact isTrue (fun _ h => by cases h)
  | some d =>
    exact decidable_of_iff (isspace d = false ∧ d ≠ '-' ∧ d ≠ '+' ∧ isdigit d = false)
      ⟨fun h c hc => by cases hc; exact h, fun h => h d rfl⟩

/-- A function `f`, declared at line 3 and implemented at line 7. -/
def symImplementedF : sym :=
  { tag := symId, ident := "f",
    decls := [ { location := { line := 3, lineChar := 5 } } ],
    impl := some { location := { line := 7, lineChar := 5 } } }

/-- Modelled from the spec: the textual names `symTagGetStr` (sym.c) gives to
the declaration kinds, "variable" for an ordinary value and "type" for a type
among them.  Used for the example diagnostics only; the functions take
`symTagGetStr` as a parameter. -/
def symTagName : symTag → String
  | .symUndefined => "undefined"
  | .symScope => "scope"
  | .symModuleLink => "module link"
  | .symType => "type"
  | .symTypedef => "typedef"
  | .symStruct => "struct"
  | .symUnion => "union"
  | .symEnum => "enum"
  | .symEnumConstant => "enum constant"
  | .symId => "variable"
  | .symParam => "parameter"

/-- The first line of the redeclaration diagnostic printed at `location`. -/
def redeclaredLine (location : tokenLocation) (ident attempted : String) : String :=
  "error(" ++ fmtInt location.line ++ ":" ++ fmtInt location.lineChar ++ "): '"
    ++ ident ++ "' redeclared as " ++ attempted ++ ".\n"

/-- The second line of the redeclaration diagnostic: the cross-reference to the
first declaration, at `first`. -/
def firstDeclarationLine (first : tokenLocation) (kind : String) : String :=
  "     (" ++ fmtInt first.line ++ ":" ++ fmtInt first.lineChar
    ++ "): first declaration here as " ++ kind ++ ".\n"

/-- The parser on the character literal `')'` (raw text with its quotes),
followed by `;`. -/
def ctxOnCharParen : parserCtx :=
  parserStart
    [ { location := { line := 1, lineChar := 1 }, token := tokenChar,
        keyword := keywordUndefined, buffer := "')'" },
      { location := { line := 1, lineChar := 4 }, token := tokenOther,
        keyword := keywordUndefined, buffer := ";" } ]
    { line := 1, lineChar := 5 } [[]]

/-- The number a sequence of decimal digits denotes, by position: each digit
times the power of ten of its place. -/
def decimalValue : List Char → Nat
  | [] => 0
  | c :: cs => (c.toNat - 48) * 10 ^ cs.length + decimalValue cs

/-- The parser on the single integer-literal token `text`. -/
def ctxOnInt (text : String) : parserCtx :=
  parserStart
    [ { location := { line := 1, lineChar := 1 }, token := tokenInt,
        keyword := keywordUndefined, buffer := text } ]
    { line := 1, lineChar := 1 + text.length } [[]]

/-- Going from `before` to `after`, one diagnostic was reported and nothing
else happened: same lexer (so same current token), same location, same scope,
same debug trace; `errors` is one more and standard output has only grown. -/
def diagnosticOnly (before after : parserCtx) : Prop :=
  after.lexer = before.lexer ∧ after.location = before.location ∧
  after.scope = before.scope ∧ after.debugLog = before.debugLog ∧
  after.errors = before.errors + 1 ∧
  ∃ text, after.output = before.output ++ text

/-- The first line of the reimplementation diagnostic printed at `location`;
`kind` is the word the line starts with. -/
def reimplementedLine (location : tokenLocation) (kind ident : String) : String :=
  "error(" ++ fmtInt location.line ++ ":" ++ fmtInt location.lineChar ++ "): "
    ++ kind ++ " '" ++ ident ++ "' reimplemented.\n"

/-- The second line of the reimplementation diagnostic: the cross-reference to
the implementation node, at `impl`. -/
def firstImplementationLine (impl : tokenLocation) : String :=
  "     (" ++ fmtInt impl.line ++ ":" ++ fmtInt impl.lineChar
    ++ "): first implementation here.\n"

/-- The struct `S`, declared at 2:8 and implemented at 4:8. -/
def symImplementedS : sym :=
  { tag := .symStruct, ident := "S",
    decls := [ { location := { line := 2, lineChar := 8 } } ],
    impl := some { location := { line := 4, lineChar := 8 } } }

/-- The eight token kinds with the display name `tokenTagGetStr` has for each. -/
def tokenKindNames : List (tokenTag × String) :=
  [ (tokenUndefined, "<undefined>"), (tokenOther, "other"), (tokenEOF, "end of file"),
    (tokenKeyword, "keyword"), (tokenIdent, "identifier"), (tokenInt, "integer"),
    (tokenStr, "string"), (tokenChar, "character") ]

/-- One call of a state-changing function of `parser-helpers.c` other than
`scopeSet`, with its arguments. -/
inductive helperCall
  | next
  | skipMaybe
  | matched
  | dupMatch
  | primitive (p : matchPrimitive)
  | expected (Expected : String)
  | undefSym
  | undefType
  | illegalOutside (what place : String)
  | redeclaredSymAs (Symbol : sym) (tag : symTag)
  | reimplementedSym (Symbol : sym)
deriving DecidableEq, Repr

/-- The call dereferences no null pointer: a redeclared symbol has a first
declaration, a reimplemented symbol has an implementation node. -/
def helperCall.defined : helperCall → Bool
  | .redeclaredSymAs Symbol _ => !Symbol.decls.isEmpty
  | .reimplementedSym Symbol => Symbol.impl.isSome
  | _ => true

/-- The context after the call (the C return value is dropped); `none` when the
call has no defined result. -/
def helperCall.perform (symTagGetStr : symTag → String) :
    helperCall → parserCtx → Option parserCtx
  | .next, ctx => some (tokenNext ctx)
  | .skipMaybe, ctx => some (tokenSkipMaybe ctx)
  | .matched, ctx => some (tokenMatch ctx)
  | .dupMatch, ctx => some (tokenDupMatch ctx).2
  | .primitive p, ctx => some (p.call ctx)
  | .expected Expected, ctx => some (errorExpected ctx Expected)
  | .undefSym, ctx => some (errorUndefSym ctx)
  | .undefType, ctx => some (errorUndefType ctx)
  | .illegalOutside what place, ctx => some (errorIllegalOutside ctx what place)
  | .redeclaredSymAs Symbol tag, ctx => errorRedeclaredSymAs symTagGetStr ctx Symbol tag
  | .reimplementedSym Symbol, ctx => errorReimplementedSym symTagGetStr ctx Symbol

/-- The calls of the list, one after the other. -/
def performAll (symTagGetStr : symTag → String) :
    List helperCall → parserCtx → Option parserCtx
  | [], ctx => some ctx
  | c :: cs, ctx =>
    match c.perform symTagGetStr ctx with
    | none => none
    | some ctx1 => performAll symTagGetStr cs ctx1

/-- The value held by the C field `ctx->errors`, a 32-bit `int` (two's
complement): the count `errors` reduced to 32 bits. -/
def errorsField (ctx : parserCtx) : Int := toInt32 ctx.errors

/-- What a 32-bit `int` holding `field` holds after `++`: one more, except that
2147483647 is followed by -2147483648. -/
def incrementInt32 (field : Int) : Int := toInt32 (field + 1)

/-- The parser on `foo`, first token of `foo ( )`, with the error counter at the
largest value of a C `int`. -/
def ctxErrorsAtMax : parserCtx :=
  { ctxFooParens with errors := 2147483647 }

/-- A symbol `g` with no recorded declaration and no implementation node. -/
def symUndeclared : sym :=
  { tag := .symId, ident := "g", decls := [], impl := none }

/-! ## Theorems -/

/-! ### The lexer step -/

theorem lexerNext_location (lexer : lexerCtx) :
    (lexerNext lexer).2 = (lexerFollowing lexer).location := by
  unfold lexerNext lexerFollowing
  cases lexer.pending <;> rfl

theorem lexerNext_token (lexer : lexerCtx) :
    (lexerNext lexer).1.token = (lexerFollowing lexer).token := by
  unfold lexerNext lexerFollowing
  cases lexer.pending <;> rfl

theorem lexerNext_keyword (lexer : lexerCtx) :
    (lexerNext lexer).1.keyword = (lexerFollowing lexer).keyword := by
  unfold lexerNext lexerFollowing
  cases lexer.pending <;> rfl

theorem lexerNext_buffer (lexer : lexerCtx) :
    (lexerNext lexer).1.buffer = (lexerFollowing lexer).buffer := by
  unfold lexerNext lexerFollowing
  cases lexer.pending <;> rfl

theorem lexerNext_pending (lexer : lexerCtx) :
    (lexerNext lexer).1.pending = lexer.pending.drop 1 := by
  unfold lexerNext
  cases lexer.pending <;> rfl

/-! ### What `error` and `errorExpected` touch -/

theorem error_errors (ctx : parserCtx) (message : String) :
    (error ctx message).errors = ctx.errors + 1 := rfl

theorem error_lexer (ctx : parserCtx) (message : String) :
    (error ctx message).lexer = ctx.lexer := rfl

theorem error_location (ctx : parserCtx) (message : String) :
    (error ctx message).location = ctx.location := rfl

theorem error_scope (ctx : parserCtx) (message : String) :
    (error ctx message).scope = ctx.scope := rfl

theorem error_debugLog (ctx : parserCtx) (message : String) :
    (error ctx message).debugLog = ctx.debugLog := rfl

theorem errorExpected_errors (ctx : parserCtx) (Expected : String) :
    (errorExpected ctx Expected).errors = ctx.errors + 1 := rfl

theorem errorExpected_lexer (ctx : parserCtx) (Expected : String) :
    (errorExpected ctx Expected).lexer = ctx.lexer := rfl

theorem errorExpected_location (ctx : parserCtx) (Expected : String) :
    (errorExpected ctx Expected).location = ctx.location := rfl

theorem errorExpected_scope (ctx : parserCtx) (Expected : String) :
    (errorExpected ctx Expected).scope = ctx.scope := rfl

/-! ### The cursor operations -/

theorem tokenNext_lexer (ctx : parserCtx) :
    (tokenNext ctx).lexer = lexerAdvance ctx.lexer := rfl

theorem tokenNext_location (ctx : parserCtx) :
    (tokenNext ctx).location = (lexerFollowing ctx.lexer).location := by
  simp [tokenNext, lexerNext_location]

theorem tokenNext_errors (ctx : parserCtx) : (tokenNext ctx).errors = ctx.errors := rfl

theorem tokenNext_scope (ctx : parserCtx) : (tokenNext ctx).scope = ctx.scope := rfl

theorem tokenMatch_lexer (ctx : parserCtx) :
    (tokenMatch ctx).lexer = lexerAdvance ctx.lexer := rfl

theorem tokenMatch_location (ctx : parserCtx) :
    (tokenMatch ctx).location = (lexerFollowing ctx.lexer).location := by
  simp [tokenMatch, tokenNext, debugMsg, lexerNext_location]

theorem tokenMatch_errors (ctx : parserCtx) : (tokenMatch ctx).errors = ctx.errors := rfl

theorem tokenMatch_scope (ctx : parserCtx) : (tokenMatch ctx).scope = ctx.scope := rfl

theorem tokenSkipMaybe_of_not_closing (ctx : parserCtx) (h : ¬ atClosing ctx) :
    tokenSkipMaybe ctx = tokenNext ctx := by
  simp only [atClosing, not_or] at h
  simp [tokenSkipMaybe, tokenIs, h.1, h.2.1, h.2.2]

theorem tokenSkipMaybe_of_closing (ctx : parserCtx) (h : atClosing ctx) :
    tokenSkipMaybe ctx = ctx := by
  unfold atClosing at h
  rcases h with h | h | h <;> simp [tokenSkipMaybe, tokenIs, h]

theorem tokenSkipMaybe_errors (ctx : parserCtx) :
    (tokenSkipMaybe ctx).errors = ctx.errors := by
  unfold tokenSkipMaybe
  split <;> rfl

theorem tokenSkipMaybe_scope (ctx : parserCtx) :
    (tokenSkipMaybe ctx).scope = ctx.scope := by
  unfold tokenSkipMaybe
  split <;> rfl


theorem error_output (ctx : parserCtx) (message : String) :
    (error ctx message).output = ctx.output ++ errorLine ctx.location message := by
  simp [error, debugWait, errorLine, String.append_assoc]

theorem tokenSkipMaybe_output (ctx : parserCtx) :
    (tokenSkipMaybe ctx).output = ctx.output := by
  unfold tokenSkipMaybe
  split <;> rfl

/-- The failure path shared by the match primitives: `errorExpected` followed by
`tokenSkipMaybe`, started from a context `ctx0` that agrees with `ctx` on the
lexer, the location, the error count and the output. -/
theorem errorExpected_then_skip (ctx ctx0 : parserCtx) (Expected : String)
    (hlexer : ctx0.lexer = ctx.lexer) (hlocation : ctx0.location = ctx.location)
    (herrors : ctx0.errors = ctx.errors) (houtput : ctx0.output = ctx.output) :
    (tokenSkipMaybe (errorExpected ctx0 Expected)).errors = ctx.errors + 1 ∧
    (tokenSkipMaybe (errorExpected ctx0 Expected)).output
      = ctx.output ++ errorLine ctx.location
          ("expected " ++ Expected ++ ", found '" ++ ctx.lexer.buffer ++ "'") ∧
    (¬ atClosing ctx →
      (tokenSkipMaybe (errorExpected ctx0 Expected)).lexer = lexerAdvance ctx.lexer ∧
      (tokenSkipMaybe (errorExpected ctx0 Expected)).lexer.buffer
        = (lexerFollowing ctx.lexer).buffer ∧
      (tokenSkipMaybe (errorExpected ctx0 Expected)).lexer.pending
        = ctx.lexer.pending.drop 1 ∧
      (tokenSkipMaybe (errorExpected ctx0 Expected)).location
        = (lexerFollowing ctx.lexer).location) ∧
    (atClosing ctx →
      (tokenSkipMaybe (errorExpected ctx0 Expected)).lexer = ctx.lexer ∧
      (tokenSkipMaybe (errorExpected ctx0 Expected)).location = ctx.location) := by
  refine ⟨?_, ?_, ?_, ?_⟩
  · rw [tokenSkipMaybe_errors, errorExpected_errors, herrors]
  · rw [tokenSkipMaybe_output]
    unfold errorExpected
    rw [error_output, houtput, hlocation, hlexer]
  · intro hc
    have hc0 : ¬ atClosing (errorExpected ctx0 Expected) := by
      unfold atClosing at hc ⊢
      rw [errorExpected_lexer, hlexer]
      exact hc
    rw [tokenSkipMaybe_of_not_closing _ hc0, tokenNext_lexer, tokenNext_location,
      errorExpected_lexer, hlexer]
    exact ⟨rfl, lexerNext_buffer ctx.lexer, lexerNext_pending ctx.lexer, rfl⟩
  · intro hc
    have hc0 : atClosing (errorExpected ctx0 Expected) := by
      unfold atClosing at hc ⊢
      rw [errorExpected_lexer, hlexer]
      exact hc
    rw [tokenSkipMaybe_of_closing _ hc0, errorExpected_lexer, errorExpected_location,
      hlexer, hlocation]
    exact ⟨rfl, rfl⟩

/-- A match primitive whose condition holds does exactly what `tokenMatch` does. -/
theorem call_eq_tokenMatch_of_holds (p : matchPrimitive) (ctx : parserCtx)
    (h : p.holds ctx = true) : p.call ctx = tokenMatch ctx := by
  cases p <;>
    simp_all [matchPrimitive.holds, matchPrimitive.call, tokenMatchKeyword,
      tokenTryMatchKeyword, tokenMatchToken, tokenMatchStr, tokenTryMatchStr,
      tokenMatchInt, tokenMatchIdent]

theorem lexerAdvance_iterate_pending (n : Nat) (lexer : lexerCtx) :
    (lexerAdvance^[n] lexer).pending = lexer.pending.drop n := by
  induction n generalizing lexer with
  | zero => simp
  | succ n ih =>
    rw [Function.iterate_succ_apply, ih]
    unfold lexerAdvance
    rw [lexerNext_pending, List.drop_drop]
    congr 1
    omega

theorem atoi_eq_zero_of_noNumberAhead (text : String) (h : noNumberAhead text) :
    atoi text = 0 := by
  unfold noNumberAhead at h
  unfold atoi
  cases htext : text.toList with
  | nil => rfl
  | cons c cs =>
    rw [htext] at h
    obtain ⟨hs, hm, hp, hd⟩ := h c rfl
    simp [List.dropWhile, hs, hm, hp, atoiDigits, hd, toInt32]

theorem tokenMatchToken_mismatch_errors (ctx : parserCtx) (Match : tokenTag)
    (h : ctx.lexer.token ≠ Match) :
    (tokenMatchToken ctx Match).errors = ctx.errors + 1 := by
  have hrun : tokenMatchToken ctx Match
      = tokenSkipMaybe (errorExpected
          { ctx with debugLog := ctx.debugLog ++ (tokenTagGetStr Match).2 }
          (tokenTagGetStr Match).1) := by
    simp [tokenMatchToken, h]
  rw [hrun, tokenSkipMaybe_errors, errorExpected_errors]

theorem tokenMatchKeyword_errors_cases (ctx : parserCtx) (keyword : keywordTag) :
    (tokenMatchKeyword ctx keyword).errors = ctx.errors ∨
    (tokenMatchKeyword ctx keyword).errors = ctx.errors + 1 := by
  unfold tokenMatchKeyword
  split
  · exact Or.inl (tokenMatch_errors ctx)
  · exact Or.inr (by simp only [tokenSkipMaybe_errors, errorExpected_errors])

theorem tokenMatchToken_errors_cases (ctx : parserCtx) (Match : tokenTag) :
    (tokenMatchToken ctx Match).errors = ctx.errors ∨
    (tokenMatchToken ctx Match).errors = ctx.errors + 1 := by
  unfold tokenMatchToken
  split
  · exact Or.inl (tokenMatch_errors ctx)
  · exact Or.inr (by simp only [tokenSkipMaybe_errors, errorExpected_errors])

theorem tokenMatchStr_errors_cases (ctx : parserCtx) (Match : String) :
    (tokenMatchStr ctx Match).errors = ctx.errors ∨
    (tokenMatchStr ctx Match).errors = ctx.errors + 1 := by
  unfold tokenMatchStr
  split
  · exact Or.inl (tokenMatch_errors ctx)
  · exact Or.inr (by simp only [tokenSkipMaybe_errors, errorExpected_errors])

theorem tokenTryMatchKeyword_errors (ctx : parserCtx) (keyword : keywordTag) :
    (tokenTryMatchKeyword ctx keyword).2.errors = ctx.errors := by
  unfold tokenTryMatchKeyword
  split <;> rfl

theorem tokenTryMatchStr_errors (ctx : parserCtx) (Match : String) :
    (tokenTryMatchStr ctx Match).2.errors = ctx.errors := by
  unfold tokenTryMatchStr
  split <;> rfl

/-! ### The symbol diagnostics, when the node they cite is there -/

theorem errorRedeclaredSymAs_eq (symTagGetStr : symTag → String) (ctx : parserCtx)
    (Symbol : sym) (tag : symTag) (first : ast) (rest : List ast)
    (hdecls : Symbol.decls = first :: rest) :
    errorRedeclaredSymAs symTagGetStr ctx Symbol tag
      = some (error ctx
          ("'" ++ Symbol.ident ++ "' redeclared as " ++ symTagGetStr tag ++ ".\n"
            ++ "     (" ++ fmtInt first.location.line ++ ":"
            ++ fmtInt first.location.lineChar
            ++ "): first declaration here as " ++ symTagGetStr Symbol.tag)) := by
  simp [errorRedeclaredSymAs, vectorGet, hdecls]

theorem errorReimplementedSym_eq (symTagGetStr : symTag → String) (ctx : parserCtx)
    (Symbol : sym) (impl : ast) (himpl : Symbol.impl = some impl) :
    errorReimplementedSym symTagGetStr ctx Symbol
      = some (error ctx
          ((if Symbol.tag = symId then "function" else symTagGetStr Symbol.tag)
            ++ " '" ++ Symbol.ident ++ "' reimplemented.\n"
            ++ "     (" ++ fmtInt impl.location.line ++ ":" ++ fmtInt impl.location.lineChar
            ++ "): first implementation here")) := by
  simp [errorReimplementedSym, himpl]

/-! ### The 32-bit error counter -/

theorem toInt32_succ (e : Int) : toInt32 (e + 1) = toInt32 (toInt32 e + 1) := by
  unfold toInt32
  norm_num
  omega

theorem toInt32_succ_of_lt (e : Int) (h : toInt32 e < 2147483647) :
    toInt32 (e + 1) = toInt32 e + 1 := by
  unfold toInt32 at h ⊢
  norm_num at h ⊢
  omega

/-- Seen through the 32-bit field, `error` is the C increment, in every state. -/
theorem error_errorsField (ctx : parserCtx) (message : String) :
    errorsField (error ctx message) = incrementInt32 (errorsField ctx) := by
  unfold errorsField incrementInt32
  rw [error_errors]
  exact toInt32_succ ctx.errors

theorem errorsField_succ (ctx ctx1 : parserCtx) (hbound : errorsField ctx < 2147483647)
    (h : ctx1.errors = ctx.errors + 1) : errorsField ctx1 = errorsField ctx + 1 := by
  unfold errorsField at hbound ⊢
  rw [h]
  exact toInt32_succ_of_lt ctx.errors hbound

theorem errorsField_le (ctx ctx1 : parserCtx) (hbound : errorsField ctx < 2147483647)
    (h : ctx1.errors = ctx.errors ∨ ctx1.errors = ctx.errors + 1) :
    errorsField ctx ≤ errorsField ctx1 := by
  rcases h with h | h
  · unfold errorsField
    rw [h]
  · rw [errorsField_succ ctx ctx1 hbound h]
    omega

/-- C1: when the probed condition is false, `tokenTryMatchStr` and
`tokenTryMatchKeyword` return false and hand back the context they were given:
same lexer (same current token), same location, same scope, same error count,
nothing added to standard output or to the debug trace. -/
theorem tryMatch_mismatch_is_noop :
    (∀ (ctx : parserCtx) (Match : String), tokenIs ctx Match = false →
        tokenTryMatchStr ctx Match = (false, ctx)) ∧
    (∀ (ctx : parserCtx) (keyword : keywordTag), tokenIsKeyword ctx keyword = false →
        tokenTryMatchKeyword ctx keyword = (false, ctx)) := by
  refine ⟨?_, ?_⟩
  · intro ctx Match h
    simp [tokenTryMatchStr, h]
  · intro ctx keyword h
    simp [tokenTryMatchKeyword, h]

/-- Instance of C1 on `foo ( )`: probing for `(` and for the keyword `int` at
`foo` returns false and changes nothing. -/
theorem tryMatch_mismatch_is_noop_witness :
    tokenIs ctxFooParens "(" = false ∧
    tokenIsKeyword ctxFooParens keywordInt = false ∧
    tokenTryMatchStr ctxFooParens "(" = (false, ctxFooParens) ∧
    tokenTryMatchKeyword ctxFooParens keywordInt = (false, ctxFooParens) :=
  ⟨by decide, by decide,
   tryMatch_mismatch_is_noop.1 ctxFooParens "(" (by decide),
   tryMatch_mismatch_is_noop.2 ctxFooParens keywordInt (by decide)⟩

/-- C2: when the current token's raw text differs from `Match`, `tokenMatchStr`
adds exactly 1 to `errors`; if the raw text is none of `)`, `]`, `}` the cursor
moves on by exactly one token (the lexer has made one step, the token after
the offending one is current, one pending token fewer, `location` is that
token's position); if it is one of the three, lexer and `location` are
unchanged. -/
theorem tokenMatchStr_mismatch (ctx : parserCtx) (Match : String)
    (h : ctx.lexer.buffer ≠ Match) :
    (tokenMatchStr ctx Match).errors = ctx.errors + 1 ∧
    (¬ atClosing ctx →
      (tokenMatchStr ctx Match).lexer = lexerAdvance ctx.lexer ∧
      (tokenMatchStr ctx Match).lexer.buffer = (lexerFollowing ctx.lexer).buffer ∧
      (tokenMatchStr ctx Match).lexer.pending = ctx.lexer.pending.drop 1 ∧
      (tokenMatchStr ctx Match).location = (lexerFollowing ctx.lexer).location) ∧
    (atClosing ctx →
      (tokenMatchStr ctx Match).lexer = ctx.lexer ∧
      (tokenMatchStr ctx Match).location = ctx.location) := by
  have hne : tokenIs ctx Match = false := by simp [tokenIs, h]
  have hrun : tokenMatchStr ctx Match
      = tokenSkipMaybe (errorExpected ctx ("'" ++ Match ++ "'")) := by
    simp [tokenMatchStr, hne]
  refine ⟨?_, ?_, ?_⟩
  · rw [hrun, tokenSkipMaybe_errors, errorExpected_errors]
  · intro hc
    have hc2 : ¬ atClosing (errorExpected ctx ("'" ++ Match ++ "'")) := hc
    rw [hrun, tokenSkipMaybe_of_not_closing _ hc2]
    refine ⟨rfl, ?_, ?_, ?_⟩
    · exact lexerNext_buffer ctx.lexer
    · exact lexerNext_pending ctx.lexer
    · exact tokenNext_location _
  · intro hc
    have hc2 : atClosing (errorExpected ctx ("'" ++ Match ++ "'")) := hc
    rw [hrun, tokenSkipMaybe_of_closing _ hc2]
    exact ⟨rfl, rfl⟩

/-- Instances of C2 on `foo ( )`: expecting `;` at `foo` gives one error and
leaves the cursor on `(`; expecting `;` at `)` gives one error and leaves the
cursor on `)`. -/
theorem tokenMatchStr_mismatch_witness :
    ((tokenMatchStr ctxFooParens ";").errors = 1 ∧
      (tokenMatchStr ctxFooParens ";").lexer.buffer = "(" ∧
      (tokenMatchStr ctxFooParens ";").location = { line := 1, lineChar := 5 }) ∧
    ((tokenMatchStr ctxAtClosingParen ";").errors = 1 ∧
      (tokenMatchStr ctxAtClosingParen ";").lexer.buffer = ")" ∧
      (tokenMatchStr ctxAtClosingParen ";").location = { line := 1, lineChar := 6 }) := by
  have h1 := tokenMatchStr_mismatch ctxFooParens ";" (by decide)
  have h2 := tokenMatchStr_mismatch ctxAtClosingParen ";" (by decide)
  have n1 : ¬ atClosing ctxFooParens := by decide
  have n2 : atClosing ctxAtClosingParen := by decide
  refine ⟨⟨h1.1, ?_, ?_⟩, ⟨h2.1, ?_, ?_⟩⟩
  · rw [(h1.2.1 n1).2.1]; rfl
  · rw [(h1.2.1 n1).2.2.2]; rfl
  · rw [(h2.2.2 n2).1]; rfl
  · rw [(h2.2.2 n2).2]; rfl

/-- C3: when the current token's keyword identity differs from the wanted
keyword (`tokenMatchKeyword`), or its kind differs from the wanted kind
(`tokenMatchToken`), the primitive reports exactly one diagnostic (`errors`
grows by exactly 1 and exactly one `error(..)` line is written, naming what was
expected and the offending token), and then the cursor moves on by one token
if the raw text is none of `)`, `]`, `}` and stays where it is if it is one of
them.  On `foo ( )` with `errors = 0`, `tokenMatchKeyword(int)` at `foo` leaves
`errors = 1` and the cursor on `(`. -/
theorem tokenMatchKeyword_tokenMatchToken_mismatch :
    (∀ (ctx : parserCtx) (keyword : keywordTag), ctx.lexer.keyword ≠ keyword →
      (tokenMatchKeyword ctx keyword).errors = ctx.errors + 1 ∧
      (tokenMatchKeyword ctx keyword).output
        = ctx.output ++ errorLine ctx.location
            ("expected " ++ ("'" ++ keywordTagGetStr keyword ++ "'")
              ++ ", found '" ++ ctx.lexer.buffer ++ "'") ∧
      (¬ atClosing ctx →
        (tokenMatchKeyword ctx keyword).lexer = lexerAdvance ctx.lexer ∧
        (tokenMatchKeyword ctx keyword).lexer.buffer = (lexerFollowing ctx.lexer).buffer ∧
        (tokenMatchKeyword ctx keyword).lexer.pending = ctx.lexer.pending.drop 1 ∧
        (tokenMatchKeyword ctx keyword).location = (lexerFollowing ctx.lexer).location) ∧
      (atClosing ctx →
        (tokenMatchKeyword ctx keyword).lexer = ctx.lexer ∧
        (tokenMatchKeyword ctx keyword).location = ctx.location)) ∧
    (∀ (ctx : parserCtx) (Match : tokenTag), ctx.lexer.token ≠ Match →
      (tokenMatchToken ctx Match).errors = ctx.errors + 1 ∧
      (tokenMatchToken ctx Match).output
        = ctx.output ++ errorLine ctx.location
            ("expected " ++ (tokenTagGetStr Match).1
              ++ ", found '" ++ ctx.lexer.buffer ++ "'") ∧
      (¬ atClosing ctx →
        (tokenMatchToken ctx Match).lexer = lexerAdvance ctx.lexer ∧
        (tokenMatchToken ctx Match).lexer.buffer = (lexerFollowing ctx.lexer).buffer ∧
        (tokenMatchToken ctx Match).lexer.pending = ctx.lexer.pending.drop 1 ∧
        (tokenMatchToken ctx Match).location = (lexerFollowing ctx.lexer).location) ∧
      (atClosing ctx →
        (tokenMatchToken ctx Match).lexer = ctx.lexer ∧
        (tokenMatchToken ctx Match).location = ctx.location)) ∧
    (ctxFooParens.errors = 0 ∧ ctxFooParens.lexer.buffer = "foo" ∧
      ctxFooParens.lexer.pending.map (fun t => t.buffer) = ["(", ")"] ∧
      (tokenMatchKeyword ctxFooParens keywordInt).errors = 1 ∧
      (tokenMatchKeyword ctxFooParens keywordInt).lexer.buffer = "(" ∧
      (tokenMatchKeyword ctxFooParens keywordInt).lexer.pending.map (fun t => t.buffer)
        = [")"]) := by
  refine ⟨?_, ?_, ?_⟩
  · intro ctx keyword h
    have hne : tokenIsKeyword ctx keyword = false := by simp [tokenIsKeyword, h]
    have hrun : tokenMatchKeyword ctx keyword
        = tokenSkipMaybe (errorExpected ctx ("'" ++ keywordTagGetStr keyword ++ "'")) := by
      simp [tokenMatchKeyword, hne]
    rw [hrun]
    exact errorExpected_then_skip ctx ctx _ rfl rfl rfl rfl
  · intro ctx Match h
    have hrun : tokenMatchToken ctx Match
        = tokenSkipMaybe (errorExpected
            { ctx with debugLog := ctx.debugLog ++ (tokenTagGetStr Match).2 }
            (tokenTagGetStr Match).1) := by
      simp [tokenMatchToken, h]
    rw [hrun]
    exact errorExpected_then_skip ctx _ _ rfl rfl rfl rfl
  · decide

/-- Instances of C3: `tokenMatchKeyword(int)` at `foo` and `tokenMatchToken`
expecting an integer at `)`: one error each; the first moves on to `(`, the
second stays on `)`. -/
theorem tokenMatchKeyword_tokenMatchToken_mismatch_witness :
    ((tokenMatchKeyword ctxFooParens keywordInt).errors = 1 ∧
      (tokenMatchKeyword ctxFooParens keywordInt).location = { line := 1, lineChar := 5 }) ∧
    ((tokenMatchToken ctxAtClosingParen tokenInt).errors = 1 ∧
      (tokenMatchToken ctxAtClosingParen tokenInt).location = { line := 1, lineChar := 6 }) := by
  have h1 := tokenMatchKeyword_tokenMatchToken_mismatch.1 ctxFooParens keywordInt (by decide)
  have h2 := tokenMatchKeyword_tokenMatchToken_mismatch.2.1 ctxAtClosingParen tokenInt
    (by decide)
  have n1 : ¬ atClosing ctxFooParens := by decide
  have n2 : atClosing ctxAtClosingParen := by decide
  refine ⟨⟨h1.1, ?_⟩, ⟨h2.1, ?_⟩⟩
  · rw [(h1.2.2.1 n1).2.2.2]; rfl
  · rw [(h2.2.2.2 n2).2]; rfl

/-- C4: whichever match primitive is called, if its condition holds for the
current token T, then after the call `location` is the position of the token
that follows T in the input, and the lexer's current token (kind, keyword
identity, raw text) is that same following token, with one pending token
fewer: location and current token always belong together. -/
theorem match_success_moves_to_following (p : matchPrimitive) (ctx : parserCtx)
    (h : p.holds ctx = true) :
    (p.call ctx).location = (lexerFollowing ctx.lexer).location ∧
    (p.call ctx).lexer.token = (lexerFollowing ctx.lexer).token ∧
    (p.call ctx).lexer.keyword = (lexerFollowing ctx.lexer).keyword ∧
    (p.call ctx).lexer.buffer = (lexerFollowing ctx.lexer).buffer ∧
    (p.call ctx).lexer.pending = ctx.lexer.pending.drop 1 := by
  rw [call_eq_tokenMatch_of_holds p ctx h, tokenMatch_location, tokenMatch_lexer]
  exact ⟨rfl, lexerNext_token _, lexerNext_keyword _, lexerNext_buffer _, lexerNext_pending _⟩

/-- Instance of C4 on `int x ;`: after `tokenMatchKeyword(int)` at `int`, the
location is (1:5), the position of `x`, and the current token is the
identifier `x`. -/
theorem match_success_moves_to_following_witness :
    (matchPrimitive.matchKeyword keywordInt).holds ctxIntXSemi = true ∧
    (tokenMatchKeyword ctxIntXSemi keywordInt).location = { line := 1, lineChar := 5 } ∧
    (tokenMatchKeyword ctxIntXSemi keywordInt).lexer.token = tokenIdent ∧
    (tokenMatchKeyword ctxIntXSemi keywordInt).lexer.buffer = "x" := by
  have h := match_success_moves_to_following (matchPrimitive.matchKeyword keywordInt)
    ctxIntXSemi (by decide)
  exact ⟨by decide, h.1, h.2.1, h.2.2.2.1⟩

/-- C5: for every sequence of match primitives in which each finds its
condition true on the token current when it runs, running the sequence leaves
`errors` as it was and leaves the cursor exactly as many tokens further on as
the sequence is long (that many lexer steps were made, that many pending
tokens are gone; a step made at the end of the input delivers the end-of-file
token again).  On `int x ;` with `errors = 0`, `tokenMatchKeyword(int)`,
`tokenMatchIdent`, `tokenMatchStr(";")` leave `errors = 0` and the cursor at
end-of-file. -/
theorem match_sequence_success :
    (∀ (ps : List matchPrimitive) (ctx : parserCtx), allHold ps ctx = true →
      (callAll ps ctx).errors = ctx.errors ∧
      (callAll ps ctx).lexer = lexerAdvance^[ps.length] ctx.lexer ∧
      (callAll ps ctx).lexer.pending = ctx.lexer.pending.drop ps.length) ∧
    (ctxIntXSemi.errors = 0 ∧
      ctxIntXSemi.lexer.buffer :: ctxIntXSemi.lexer.pending.map (fun t => t.buffer)
        = ["int", "x", ";"] ∧
      allHold [.matchKeyword keywordInt, .matchIdent, .matchStr ";"] ctxIntXSemi = true ∧
      (callAll [.matchKeyword keywordInt, .matchIdent, .matchStr ";"] ctxIntXSemi).errors = 0 ∧
      (callAll [.matchKeyword keywordInt, .matchIdent, .matchStr ";"] ctxIntXSemi).lexer.token
        = tokenEOF ∧
      (callAll [.matchKeyword keywordInt, .matchIdent, .matchStr ";"] ctxIntXSemi).lexer.pending
        = []) := by
  refine ⟨?_, by decide⟩
  intro ps
  induction ps with
  | nil => intro ctx _; exact ⟨rfl, rfl, rfl⟩
  | cons p ps ih =>
    intro ctx h
    simp only [allHold, Bool.and_eq_true] at h
    have hstep := call_eq_tokenMatch_of_holds p ctx h.1
    have hrest := ih (p.call ctx) h.2
    have hlexer : (callAll (p :: ps) ctx).lexer = lexerAdvance^[(p :: ps).length] ctx.lexer := by
      show (callAll ps (p.call ctx)).lexer = _
      rw [hrest.2.1, hstep, tokenMatch_lexer, List.length_cons, Function.iterate_succ_apply]
    refine ⟨?_, hlexer, ?_⟩
    · show (callAll ps (p.call ctx)).errors = _
      rw [hrest.1, hstep, tokenMatch_errors]
    · rw [hlexer, lexerAdvance_iterate_pending]

/-- Instance of C5 on `int x ;`: the two calls `tokenMatchKeyword(int)`,
`tokenMatchIdent` leave `errors = 0` and the cursor two tokens on, at `;`. -/
theorem match_sequence_success_witness :
    allHold [.matchKeyword keywordInt, .matchIdent] ctxIntXSemi = true ∧
    (callAll [.matchKeyword keywordInt, .matchIdent] ctxIntXSemi).errors = 0 ∧
    (callAll [.matchKeyword keywordInt, .matchIdent] ctxIntXSemi).lexer
      = lexerAdvance (lexerAdvance ctxIntXSemi.lexer) ∧
    (callAll [.matchKeyword keywordInt, .matchIdent] ctxIntXSemi).lexer.pending = [] :=
  have h := match_sequence_success.1 [.matchKeyword keywordInt, .matchIdent] ctxIntXSemi
    (by decide)
  ⟨by decide, h.1, h.2.1, h.2.2⟩

/-- C6: whatever scope is bound (empty, or holding any symbols, also an ordinary
value or a parameter named like the token), `tokenIsDecl` returns true when the
current token's keyword identity is one of const, auto, static, extern,
typedef, struct, union, enum, void, bool, char, int. -/
theorem tokenIsDecl_of_declKeyword (ctx : parserCtx)
    (h : ctx.lexer.keyword ∈ declKeywords) : tokenIsDecl ctx = true := by
  simp only [declKeywords, List.mem_cons, List.mem_singleton, List.not_mem_nil,
    or_false] at h
  rcases h with h | h | h | h | h | h | h | h | h | h | h | h <;>
    simp [tokenIsDecl, tokenIsKeyword, h]

/-- Instances of C6: at the keyword `int`, `tokenIsDecl` is true in the empty
scope and also in a scope where `int` is bound as an ordinary value and as a
parameter. -/
theorem tokenIsDecl_of_declKeyword_witness :
    symFind ctxIntXSemi.scope ctxIntXSemi.lexer.buffer = none ∧
    tokenIsDecl ctxIntXSemi = true ∧
    symFind ctxIntShadowed.scope ctxIntShadowed.lexer.buffer
      = some (symDeclared symId "int") ∧
    tokenIsDecl ctxIntShadowed = true :=
  ⟨by decide, tokenIsDecl_of_declKeyword ctxIntXSemi (by decide),
   by decide, tokenIsDecl_of_declKeyword ctxIntShadowed (by decide)⟩

/-- C7: when the current token's keyword identity is none of the twelve
declaration keywords, `tokenIsDecl` returns true exactly when `symFind` on the
bound scope and the token's raw text finds a symbol whose kind is neither
`symId` nor `symParam`; so it is false when the lookup resolves to an ordinary
value or to a parameter, and false when the lookup finds nothing. -/
theorem tokenIsDecl_of_other_keyword (ctx : parserCtx)
    (h : ctx.lexer.keyword ∉ declKeywords) :
    (tokenIsDecl ctx = true ↔
      ∃ Symbol, symFind ctx.scope ctx.lexer.buffer = some Symbol ∧
        Symbol.tag ≠ symId ∧ Symbol.tag ≠ symParam) ∧
    (∀ Symbol, symFind ctx.scope ctx.lexer.buffer = some Symbol →
      Symbol.tag = symId ∨ Symbol.tag = symParam → tokenIsDecl ctx = false) ∧
    (symFind ctx.scope ctx.lexer.buffer = none → tokenIsDecl ctx = false) := by
  simp only [declKeywords, List.mem_cons, List.mem_singleton, List.not_mem_nil,
    or_false, not_or] at h
  obtain ⟨h1, h2, h3, h4, h5, h6, h7, h8, h9, h10, h11, h12⟩ := h
  have hkw : tokenIsDecl ctx =
      (match symFind ctx.scope ctx.lexer.buffer with
       | some Symbol => Symbol.tag != symId && Symbol.tag != symParam
       | none => false) := by
    have e : ∀ k, ctx.lexer.keyword ≠ k → (ctx.lexer.keyword == k) = false :=
      fun k hk => by simpa using hk
    simp only [tokenIsDecl, tokenIsKeyword, e _ h1, e _ h2, e _ h3, e _ h4, e _ h5, e _ h6,
      e _ h7, e _ h8, e _ h9, e _ h10, e _ h11, e _ h12, Bool.or_false]
  rw [hkw]
  cases hfind : symFind ctx.scope ctx.lexer.buffer with
  | none => simp
  | some Found =>
    refine ⟨?_, ?_, ?_⟩
    · simp
    · intro Symbol hs htag
      cases hs
      rcases htag with htag | htag <;> simp [htag]
    · intro hnone
      cases hnone

/-- Instances of C7 at the identifier `T`: bound as a typedef in an enclosing
scope it starts a declaration; shadowed by an ordinary value, bound as a
parameter, or unbound, it does not. -/
theorem tokenIsDecl_of_other_keyword_witness :
    tokenIsDecl (ctxOnIdent "T" [[], [symDeclared symTypedef "T"]]) = true ∧
    tokenIsDecl (ctxOnIdent "T" [[symDeclared symId "T"], [symDeclared symTypedef "T"]])
      = false ∧
    tokenIsDecl (ctxOnIdent "T" [[symDeclared symParam "T"]]) = false ∧
    tokenIsDecl (ctxOnIdent "T" [[symDeclared symTypedef "U"]]) = false := by
  refine ⟨?_, ?_, ?_, ?_⟩
  · exact (tokenIsDecl_of_other_keyword
      (ctxOnIdent "T" [[], [symDeclared symTypedef "T"]]) (by decide)).1.2
      ⟨symDeclared symTypedef "T", by decide, by decide, by decide⟩
  · exact (tokenIsDecl_of_other_keyword
      (ctxOnIdent "T" [[symDeclared symId "T"], [symDeclared symTypedef "T"]])
      (by decide)).2.1 (symDeclared symId "T") (by decide) (Or.inl rfl)
  · exact (tokenIsDecl_of_other_keyword
      (ctxOnIdent "T" [[symDeclared symParam "T"]]) (by decide)).2.1
      (symDeclared symParam "T") (by decide) (Or.inr rfl)
  · exact (tokenIsDecl_of_other_keyword
      (ctxOnIdent "T" [[symDeclared symTypedef "U"]]) (by decide)).2.2 (by decide)

/-- C8, as stated, fails: on `foo ( )` with the cursor on `(`, a token of kind
other, `tokenMatchIdent` returns the text `(`, not the empty string. -/
theorem tokenMatchIdent_mismatch_not_empty :
    ctxAtOpenParen.lexer.token ≠ tokenIdent ∧
    (tokenMatchIdent ctxAtOpenParen).1 = "(" ∧
    ¬ (∀ ctx : parserCtx, ctx.lexer.token ≠ tokenIdent → (tokenMatchIdent ctx).1 = "") := by
  refine ⟨by decide, by decide, ?_⟩
  intro hall
  have h := hall ctxAtOpenParen (by decide)
  revert h
  decide

/-- C8, amended: on failure `tokenMatchIdent` returns the raw text of the
offending token, and `tokenMatchInt` returns `atoi` of the raw text of the
offending token, which is zero whenever that text is empty or starts with a
character that is neither white space, a sign nor a digit; either failure
adds 1 to `errors`. -/
theorem match_mismatch_results :
    (∀ ctx : parserCtx, ctx.lexer.token ≠ tokenIdent →
      (tokenMatchIdent ctx).1 = ctx.lexer.buffer ∧
      (tokenMatchIdent ctx).2.errors = ctx.errors + 1) ∧
    (∀ ctx : parserCtx, ctx.lexer.token ≠ tokenInt →
      (tokenMatchInt ctx).1 = atoi ctx.lexer.buffer ∧
      (tokenMatchInt ctx).2.errors = ctx.errors + 1 ∧
      (noNumberAhead ctx.lexer.buffer → (tokenMatchInt ctx).1 = 0)) := by
  refine ⟨?_, ?_⟩
  · intro ctx h
    exact ⟨rfl, tokenMatchToken_mismatch_errors ctx tokenIdent h⟩
  · intro ctx h
    exact ⟨rfl, tokenMatchToken_mismatch_errors ctx tokenInt h,
      fun hn => atoi_eq_zero_of_noNumberAhead _ hn⟩

/-- Instance of the amended C8 on `foo ( )` at `(`: `tokenMatchIdent` returns
`(`, `tokenMatchInt` returns 0, and each reports one error. -/
theorem match_mismatch_results_witness :
    ((tokenMatchIdent ctxAtOpenParen).1 = "(" ∧
      (tokenMatchIdent ctxAtOpenParen).2.errors = 1) ∧
    ((tokenMatchInt ctxAtOpenParen).1 = 0 ∧
      (tokenMatchInt ctxAtOpenParen).2.errors = 1) := by
  have h1 := match_mismatch_results.1 ctxAtOpenParen (by decide)
  have h2 := match_mismatch_results.2 ctxAtOpenParen (by decide)
  exact ⟨⟨h1.1, h1.2⟩, ⟨h2.2.2 (by decide), h2.2.1⟩⟩

/-- C9: when the current token has kind identifier, `tokenMatchIdent` returns
that token's raw text as it was when the call was made (whatever the lexer's
buffer holds after the advance), consumes exactly that token (one lexer step,
one pending token fewer, `location` on the following token) and leaves `errors`
unchanged.  On the token `x` of `int x ;` it returns "x" with `errors` still 0,
while the lexer's buffer has moved on to `;`. -/
theorem tokenMatchIdent_success :
    (∀ ctx : parserCtx, ctx.lexer.token = tokenIdent →
      (tokenMatchIdent ctx).1 = ctx.lexer.buffer ∧
      (tokenMatchIdent ctx).2.lexer = lexerAdvance ctx.lexer ∧
      (tokenMatchIdent ctx).2.lexer.pending = ctx.lexer.pending.drop 1 ∧
      (tokenMatchIdent ctx).2.location = (lexerFollowing ctx.lexer).location ∧
      (tokenMatchIdent ctx).2.errors = ctx.errors) ∧
    (ctxAtX.lexer.token = tokenIdent ∧ ctxAtX.lexer.buffer = "x" ∧ ctxAtX.errors = 0 ∧
      (tokenMatchIdent ctxAtX).1 = "x" ∧
      (tokenMatchIdent ctxAtX).2.errors = 0 ∧
      (tokenMatchIdent ctxAtX).2.lexer.buffer = ";") := by
  refine ⟨?_, by decide⟩
  intro ctx h
  have hrun : (tokenMatchIdent ctx).2 = tokenMatch ctx := by
    simp [tokenMatchIdent, tokenMatchToken, h]
  rw [hrun]
  exact ⟨rfl, rfl, lexerNext_pending _, tokenMatch_location _, rfl⟩

/-- Instance of C9 on the identifier `foo` of `foo ( )`. -/
theorem tokenMatchIdent_success_witness :
    (tokenMatchIdent ctxFooParens).1 = "foo" ∧
    (tokenMatchIdent ctxFooParens).2.lexer.pending = ctxFooParens.lexer.pending.drop 1 ∧
    (tokenMatchIdent ctxFooParens).2.errors = 0 :=
  have h := tokenMatchIdent_success.1 ctxFooParens (by decide)
  ⟨h.1, h.2.2.1, h.2.2.2.2⟩

/-- C10, as stated, fails at the top of the counter's range and on symbols
that lack the node a diagnostic cites.  With `ctx->errors` at 2147483647, the
largest value of a C `int`, `errorUndefSym` leaves the field at -2147483648,
smaller than before, and so does a failed `tokenMatchStr`; and
`errorRedeclaredSymAs` on a symbol without declaration, `errorReimplementedSym`
on a symbol without implementation node, dereference a null pointer and return
no context at all. -/
theorem errors_wraps_at_int_max :
    errorsField ctxErrorsAtMax = 2147483647 ∧
    errorsField (errorUndefSym ctxErrorsAtMax) = -2147483648 ∧
    errorsField (errorUndefSym ctxErrorsAtMax) < errorsField ctxErrorsAtMax ∧
    errorsField (tokenMatchStr ctxErrorsAtMax ";") < errorsField ctxErrorsAtMax ∧
    ¬ (∀ ctx : parserCtx, errorsField ctx ≤ errorsField (errorUndefSym ctx)) ∧
    errorRedeclaredSymAs symTagName ctxFooParens symUndeclared symType = none ∧
    errorReimplementedSym symTagName ctxFooParens symUndeclared = none := by
  refine ⟨by decide, by decide, by decide, by decide, ?_, by decide, by decide⟩
  intro hall
  exact absurd (hall ctxErrorsAtMax) (by decide)

/-- C10, amended: while the error counter is below the largest value of a C
`int` (the field `ctx->errors` holds less than 2147483647), it never decreases
and counts diagnostics exactly.  `scopeSet`, `tokenNext`, `tokenSkipMaybe`,
`tokenMatch`, `tokenDupMatch` and each of the seven match primitives (matching
or not) leave the field at least as large as before; `error`, `errorExpected`,
`errorUndefSym`, `errorUndefType` and `errorIllegalOutside` add exactly 1 to it;
`errorRedeclaredSymAs` on a symbol that has a first declaration and
`errorReimplementedSym` on a symbol that has an implementation node return and
add exactly 1 to it.  (The token predicates only compute a truth value; they
return no context.) -/
theorem errors_monotone_and_counted (symTagGetStr : symTag → String) (ctx : parserCtx)
    (hbound : errorsField ctx < 2147483647) :
    (∀ Scope : symScope, errorsField ctx ≤ errorsField (scopeSet ctx Scope).2) ∧
    errorsField ctx ≤ errorsField (tokenNext ctx) ∧
    errorsField ctx ≤ errorsField (tokenSkipMaybe ctx) ∧
    errorsField ctx ≤ errorsField (tokenMatch ctx) ∧
    errorsField ctx ≤ errorsField (tokenDupMatch ctx).2 ∧
    (∀ keyword : keywordTag,
      errorsField ctx ≤ errorsField (tokenMatchKeyword ctx keyword) ∧
      errorsField ctx ≤ errorsField (tokenTryMatchKeyword ctx keyword).2) ∧
    (∀ Match : tokenTag, errorsField ctx ≤ errorsField (tokenMatchToken ctx Match)) ∧
    (∀ Match : String,
      errorsField ctx ≤ errorsField (tokenMatchStr ctx Match) ∧
      errorsField ctx ≤ errorsField (tokenTryMatchStr ctx Match).2) ∧
    errorsField ctx ≤ errorsField (tokenMatchInt ctx).2 ∧
    errorsField ctx ≤ errorsField (tokenMatchIdent ctx).2 ∧
    (∀ message : String, errorsField (error ctx message) = errorsField ctx + 1) ∧
    (∀ Expected : String, errorsField (errorExpected ctx Expected) = errorsField ctx + 1) ∧
    errorsField (errorUndefSym ctx) = errorsField ctx + 1 ∧
    errorsField (errorUndefType ctx) = errorsField ctx + 1 ∧
    (∀ what place : String,
      errorsField (errorIllegalOutside ctx what place) = errorsField ctx + 1) ∧
    (∀ (Symbol : sym) (tag : symTag), Symbol.decls ≠ [] →
      ∃ ctx1, errorRedeclaredSymAs symTagGetStr ctx Symbol tag = some ctx1 ∧
        errorsField ctx1 = errorsField ctx + 1) ∧
    (∀ Symbol : sym, Symbol.impl ≠ none →
      ∃ ctx1, errorReimplementedSym symTagGetStr ctx Symbol = some ctx1 ∧
        errorsField ctx1 = errorsField ctx + 1) := by
  have hsame : ∀ ctx1 : parserCtx, ctx1.errors = ctx.errors →
      errorsField ctx ≤ errorsField ctx1 :=
    fun ctx1 h => errorsField_le ctx ctx1 hbound (Or.inl h)
  have hsucc : ∀ message : String,
      errorsField (error ctx message) = errorsField ctx + 1 :=
    fun message => errorsField_succ ctx _ hbound (error_errors ctx message)
  refine ⟨fun _ => hsame _ rfl, hsame _ rfl, hsame _ (tokenSkipMaybe_errors ctx),
    hsame _ rfl, hsame _ rfl,
    fun keyword => ⟨errorsField_le ctx _ hbound (tokenMatchKeyword_errors_cases ctx keyword),
      hsame _ (tokenTryMatchKeyword_errors ctx keyword)⟩,
    fun Match => errorsField_le ctx _ hbound (tokenMatchToken_errors_cases ctx Match),
    fun Match => ⟨errorsField_le ctx _ hbound (tokenMatchStr_errors_cases ctx Match),
      hsame _ (tokenTryMatchStr_errors ctx Match)⟩,
    errorsField_le ctx _ hbound (tokenMatchToken_errors_cases ctx tokenInt),
    errorsField_le ctx _ hbound (tokenMatchToken_errors_cases ctx tokenIdent),
    hsucc, fun _ => hsucc _, hsucc _, hsucc _, fun _ _ => hsucc _, ?_, ?_⟩
  · intro Symbol tag hdecls
    cases hd : Symbol.decls with
    | nil => exact absurd hd hdecls
    | cons first rest =>
      exact ⟨_, errorRedeclaredSymAs_eq symTagGetStr ctx Symbol tag first rest hd, hsucc _⟩
  · intro Symbol himpl
    cases hi : Symbol.impl with
    | none => exact absurd hi himpl
    | some impl =>
      exact ⟨_, errorReimplementedSym_eq symTagGetStr ctx Symbol impl hi, hsucc _⟩

/-- Instances of the amended C10 on `foo ( )`, where the counter is 0: after
`errorUndefSym` the field holds 1, a successful `tokenMatchIdent` leaves it at
least 0, and redeclaring and reimplementing the function `f` each return a
context whose field holds 1. -/
theorem errors_monotone_and_counted_witness :
    errorsField ctxFooParens = 0 ∧
    errorsField (errorUndefSym ctxFooParens) = 1 ∧
    0 ≤ errorsField (tokenMatchIdent ctxFooParens).2 ∧
    (∃ ctx1, errorRedeclaredSymAs symTagName ctxFooParens symImplementedF symType
        = some ctx1 ∧ errorsField ctx1 = 1) ∧
    (∃ ctx1, errorReimplementedSym symTagName ctxFooParens symImplementedF
        = some ctx1 ∧ errorsField ctx1 = 1) := by
  have h := errors_monotone_and_counted symTagName ctxFooParens (by decide)
  have h0 : errorsField ctxFooParens = 0 := by decide
  rw [h0] at h
  obtain ⟨c1, hr1, he1⟩ := h.2.2.2.2.2.2.2.2.2.2.2.2.2.2.2.1 symImplementedF symType
    (by decide)
  obtain ⟨c2, hr2, he2⟩ := h.2.2.2.2.2.2.2.2.2.2.2.2.2.2.2.2 symImplementedF (by decide)
  exact ⟨h0, h.2.2.2.2.2.2.2.2.2.2.2.2.1, h.2.2.2.2.2.2.2.2.2.1,
    ⟨c1, hr1, he1⟩, ⟨c2, hr2, he2⟩⟩

/-! ### Text of the two-line diagnostics -/

theorem errorLine_two_lines (location : tokenLocation) (a b : String) :
    errorLine location (a ++ ".\n" ++ b)
      = ("error(" ++ fmtInt location.line ++ ":" ++ fmtInt location.lineChar ++ "): "
          ++ a ++ ".\n") ++ (b ++ ".\n") := by
  simp [errorLine, String.append_assoc]

/-- C11: for every symbol whose declaration sequence is not empty and every
attempted kind, `errorRedeclaredSymAs` returns, and what it has printed is
exactly two lines: `error(L:C): '<ident>' redeclared as <name of the attempted
kind>.` and `     (l:c): first declaration here as <name of the symbol's own
kind>.`, with `l:c` the line and column of element 0 of the declaration
sequence; `errors` has grown by exactly 1; the function hands back a context
only, whose bound scope (where the symbols are stored), lexer and location are
the ones it was given.  For the symbol `x`, an ordinary value ("variable")
declared once at line 3, and the attempted kind type, the lines read
`'x' redeclared as type` and `(3:1): first declaration here as variable`. -/
theorem errorRedeclaredSymAs_diagnostic :
    (∀ (symTagGetStr : symTag → String) (ctx : parserCtx) (Symbol : sym) (tag : symTag)
        (first : ast) (rest : List ast), Symbol.decls = first :: rest →
      ∃ ctx1, errorRedeclaredSymAs symTagGetStr ctx Symbol tag = some ctx1 ∧
        ctx1.output = ctx.output
          ++ redeclaredLine ctx.location Symbol.ident (symTagGetStr tag)
          ++ firstDeclarationLine first.location (symTagGetStr Symbol.tag) ∧
        ctx1.errors = ctx.errors + 1 ∧
        ctx1.scope = ctx.scope ∧ ctx1.lexer = ctx.lexer ∧ ctx1.location = ctx.location) ∧
    (∃ ctx1, errorRedeclaredSymAs symTagName (ctxOnIdent "x" [[symDeclared symId "x"]])
          (symDeclared symId "x") symType = some ctx1 ∧
        ctx1.output = "error(1:1): 'x' redeclared as type.\n"
          ++ "     (3:1): first declaration here as variable.\n" ∧
        ctx1.errors = 1 ∧
        symFind ctx1.scope "x" = some (symDeclared symId "x")) := by
  refine ⟨?_, ⟨_, errorRedeclaredSymAs_eq symTagName _ _ symType _ [] rfl,
    by decide, by decide, by decide⟩⟩
  intro symTagGetStr ctx Symbol tag first rest hdecls
  refine ⟨_, errorRedeclaredSymAs_eq symTagGetStr ctx Symbol tag first rest hdecls,
    ?_, rfl, rfl, rfl, rfl⟩
  rw [error_output]
  have h := errorLine_two_lines ctx.location
    ("'" ++ Symbol.ident ++ "' redeclared as " ++ symTagGetStr tag)
    ("     (" ++ fmtInt first.location.line ++ ":" ++ fmtInt first.location.lineChar
        ++ "): first declaration here as " ++ symTagGetStr Symbol.tag)
  simp only [String.append_assoc] at h ⊢
  rw [h]
  simp [redeclaredLine, firstDeclarationLine, String.append_assoc]
  rfl

/-- Instance of C11: redeclaring the function `f` (declared at 3:5) as a type
while the cursor is on `foo` at 1:1. -/
theorem errorRedeclaredSymAs_diagnostic_witness :
    ∃ ctx1, errorRedeclaredSymAs symTagName ctxFooParens symImplementedF symType = some ctx1 ∧
      ctx1.output = "error(1:1): 'f' redeclared as type.\n"
        ++ "     (3:5): first declaration here as variable.\n" ∧
      ctx1.errors = 1 := by
  obtain ⟨ctx1, h1, h2, h3, _⟩ := errorRedeclaredSymAs_diagnostic.1 symTagName ctxFooParens
    symImplementedF symType { location := { line := 3, lineChar := 5 } } [] rfl
  refine ⟨ctx1, h1, ?_, h3⟩
  rw [h2]
  decide

/-- C12: `scopeSet(ctx, s)` returns the scope that was bound before the call,
makes `s` the bound scope, and leaves lexer, location, errors (and what has
been printed) as they were; so binding `s1` and then binding the value the
first call returned gives back the original context exactly, and the second
call returns `s1`. -/
theorem scopeSet_save_restore (ctx : parserCtx) (s1 : symScope) :
    (scopeSet ctx s1).1 = ctx.scope ∧
    (scopeSet ctx s1).2.scope = s1 ∧
    (scopeSet ctx s1).2.lexer = ctx.lexer ∧
    (scopeSet ctx s1).2.location = ctx.location ∧
    (scopeSet ctx s1).2.errors = ctx.errors ∧
    (scopeSet ctx s1).2.output = ctx.output ∧
    (scopeSet ctx s1).2.debugLog = ctx.debugLog ∧
    scopeSet (scopeSet ctx s1).2 (scopeSet ctx s1).1 = (s1, ctx) :=
  ⟨rfl, rfl, rfl, rfl, rfl, rfl, rfl, rfl⟩

/-! ### `tokenSkipMaybe` and the text of the expectation diagnostic -/

theorem not_atClosing_of_length (ctx : parserCtx) (h : ctx.lexer.buffer.length ≠ 1) :
    ¬ atClosing ctx := by
  intro hc
  unfold atClosing at hc
  rcases hc with hc | hc | hc <;> rw [hc] at h <;> exact h rfl

/-- C13: `tokenSkipMaybe` moves the cursor on by exactly one token when the
current token's raw text is none of `)`, `]`, `}` (one lexer step: the
following token is current, one pending token fewer, `location` is its
position; nothing printed); the comparison is on the whole text, so any text
that is not exactly one character long is skipped even if it starts with or
contains a closing bracket; when the text is one of the three the context is
returned unchanged; `errors` and `scope` are never changed. -/
theorem tokenSkipMaybe_behaviour :
    (∀ ctx : parserCtx, ¬ atClosing ctx →
      tokenSkipMaybe ctx = tokenNext ctx ∧
      (tokenSkipMaybe ctx).lexer = lexerAdvance ctx.lexer ∧
      (tokenSkipMaybe ctx).lexer.token = (lexerFollowing ctx.lexer).token ∧
      (tokenSkipMaybe ctx).lexer.buffer = (lexerFollowing ctx.lexer).buffer ∧
      (tokenSkipMaybe ctx).lexer.pending = ctx.lexer.pending.drop 1 ∧
      (tokenSkipMaybe ctx).location = (lexerFollowing ctx.lexer).location ∧
      (tokenSkipMaybe ctx).output = ctx.output ∧
      (tokenSkipMaybe ctx).debugLog = ctx.debugLog) ∧
    (∀ ctx : parserCtx, ctx.lexer.buffer.length ≠ 1 → tokenSkipMaybe ctx = tokenNext ctx) ∧
    (∀ ctx : parserCtx, atClosing ctx → tokenSkipMaybe ctx = ctx) ∧
    (∀ ctx : parserCtx,
      (tokenSkipMaybe ctx).errors = ctx.errors ∧ (tokenSkipMaybe ctx).scope = ctx.scope) := by
  refine ⟨?_, ?_, tokenSkipMaybe_of_closing, fun ctx =>
    ⟨tokenSkipMaybe_errors ctx, tokenSkipMaybe_scope ctx⟩⟩
  · intro ctx h
    rw [tokenSkipMaybe_of_not_closing ctx h]
    exact ⟨rfl, rfl, lexerNext_token _, lexerNext_buffer _, lexerNext_pending _,
      tokenNext_location _, rfl, rfl⟩
  · intro ctx h
    exact tokenSkipMaybe_of_not_closing ctx (not_atClosing_of_length ctx h)

/-- Instances of C13: on `foo ( )`, `foo` is skipped (the cursor is then on
`(`) and `)` is not; the character literal `')'`, whose text contains a closing
parenthesis, is skipped. -/
theorem tokenSkipMaybe_behaviour_witness :
    (tokenSkipMaybe ctxFooParens).lexer.buffer = "(" ∧
    tokenSkipMaybe ctxAtClosingParen = ctxAtClosingParen ∧
    ctxOnCharParen.lexer.buffer = "')'" ∧
    (tokenSkipMaybe ctxOnCharParen).lexer.buffer = ";" := by
  have h1 := tokenSkipMaybe_behaviour.1 ctxFooParens (by decide)
  have h2 := tokenSkipMaybe_behaviour.2.1 ctxOnCharParen (by decide)
  have h3 := tokenSkipMaybe_behaviour.2.2.1 ctxAtClosingParen (by decide)
  refine ⟨?_, h3, by decide, ?_⟩
  · rw [h1.2.2.2.1]; decide
  · rw [h2]; decide

/-- C14: when the cursor is at location `(L, C)` on a token of raw text `T` and
`Match` differs from `T`, what `tokenMatchStr(ctx, Match)` writes to standard
output is exactly the one line `error(L:C): expected 'Match', found 'T'.`,
with `L`, `C` and `T` those of the context the primitive was called on (the
offending token), whatever token the cursor is on after the call; nothing goes
to the debug trace. -/
theorem tokenMatchStr_mismatch_output (ctx : parserCtx) (Match : String)
    (h : ctx.lexer.buffer ≠ Match) :
    (tokenMatchStr ctx Match).output
      = ctx.output ++ ("error(" ++ fmtInt ctx.location.line ++ ":"
          ++ fmtInt ctx.location.lineChar ++ "): expected '" ++ Match
          ++ "', found '" ++ ctx.lexer.buffer ++ "'.\n") ∧
    (tokenMatchStr ctx Match).debugLog = ctx.debugLog := by
  have hne : tokenIs ctx Match = false := by simp [tokenIs, h]
  have hrun : tokenMatchStr ctx Match
      = tokenSkipMaybe (errorExpected ctx ("'" ++ Match ++ "'")) := by
    simp [tokenMatchStr, hne]
  refine ⟨?_, ?_⟩
  · rw [hrun, (errorExpected_then_skip ctx ctx _ rfl rfl rfl rfl).2.1]
    simp only [errorLine, String.append_assoc]
    rfl
  · rw [hrun]
    unfold tokenSkipMaybe
    split <;> rfl

/-- Instance of C14 on `foo ( )`: expecting `;` at `foo` (1:1) prints
`error(1:1): expected ';', found 'foo'.`, although the cursor is afterwards on
`(` at 1:5. -/
theorem tokenMatchStr_mismatch_output_witness :
    (tokenMatchStr ctxFooParens ";").output = "error(1:1): expected ';', found 'foo'.\n" ∧
    (tokenMatchStr ctxFooParens ";").lexer.buffer = "(" ∧
    (tokenMatchStr ctxFooParens ";").location = { line := 1, lineChar := 5 } := by
  have h := tokenMatchStr_mismatch_output ctxFooParens ";" (by decide)
  refine ⟨?_, by decide, by decide⟩
  rw [h.1]
  decide

/-! ### `atoi` on digit sequences -/

theorem isspace_eq_false_of_isdigit (c : Char) (h : isdigit c = true) :
    isspace c = false := by
  simp only [isdigit, Bool.and_eq_true, decide_eq_true_eq] at h
  simp only [isspace, Bool.or_eq_false_iff, Bool.and_eq_false_iff, beq_eq_false_iff_ne,
    decide_eq_false_iff_not]
  omega

theorem ne_sign_of_isdigit (c : Char) (h : isdigit c = true) : c ≠ '-' ∧ c ≠ '+' := by
  refine ⟨?_, ?_⟩ <;> intro hc <;> rw [hc] at h <;> revert h <;> decide

theorem atoiDigits_eq (cs : List Char) (hdigits : ∀ c ∈ cs, isdigit c = true) (acc : Int) :
    atoiDigits cs acc = acc * 10 ^ cs.length + (decimalValue cs : Int) := by
  induction cs generalizing acc with
  | nil => simp [atoiDigits, decimalValue]
  | cons c cs ih =>
    have hc : isdigit c = true := hdigits c (List.mem_cons_self c cs)
    have hrest : ∀ d ∈ cs, isdigit d = true := fun d hd => hdigits d (List.mem_cons_of_mem c hd)
    have hlow : 48 ≤ c.toNat := by
      simp only [isdigit, Bool.and_eq_true, decide_eq_true_eq] at hc
      exact hc.1
    have hcast : ((c.toNat - 48 : Nat) : Int) = (c.toNat : Int) - 48 := by omega
    simp only [atoiDigits, hc, if_true, ih hrest, decimalValue, List.length_cons]
    push_cast
    rw [hcast]
    ring

theorem toInt32_of_fits (v : Int) (h0 : 0 ≤ v) (h1 : v ≤ 2147483647) : toInt32 v = v := by
  unfold toInt32
  norm_num
  omega

theorem atoi_of_digits (text : String) (hne : text.toList ≠ [])
    (hdigits : ∀ c ∈ text.toList, isdigit c = true)
    (hfit : decimalValue text.toList ≤ 2147483647) :
    atoi text = (decimalValue text.toList : Int) := by
  unfold atoi
  cases htext : text.toList with
  | nil => exact absurd htext hne
  | cons c cs =>
    rw [htext] at hdigits hfit
    have hc : isdigit c = true := hdigits c (List.mem_cons_self c cs)
    have hs := isspace_eq_false_of_isdigit c hc
    obtain ⟨hm, hp⟩ := ne_sign_of_isdigit c hc
    simp only [List.dropWhile, hs, hm, hp, if_false]
    rw [atoiDigits_eq (c :: cs) hdigits 0]
    simp only [zero_mul, zero_add]
    exact toInt32_of_fits _ (by positivity) (by exact_mod_cast hfit)

/-- C15: when the current token has kind integer-literal and its raw text is a
non-empty sequence of decimal digits whose value fits in a C `int` (at most
2147483647), `tokenMatchInt` returns exactly that value, consumes the token (one
lexer step, one pending token fewer, `location` on the following token) and
leaves `errors` unchanged. -/
theorem tokenMatchInt_success (ctx : parserCtx) (hkind : ctx.lexer.token = tokenInt)
    (hne : ctx.lexer.buffer.toList ≠ [])
    (hdigits : ∀ c ∈ ctx.lexer.buffer.toList, isdigit c = true)
    (hfit : decimalValue ctx.lexer.buffer.toList ≤ 2147483647) :
    (tokenMatchInt ctx).1 = (decimalValue ctx.lexer.buffer.toList : Int) ∧
    (tokenMatchInt ctx).2.lexer = lexerAdvance ctx.lexer ∧
    (tokenMatchInt ctx).2.lexer.pending = ctx.lexer.pending.drop 1 ∧
    (tokenMatchInt ctx).2.location = (lexerFollowing ctx.lexer).location ∧
    (tokenMatchInt ctx).2.errors = ctx.errors := by
  have hrun : (tokenMatchInt ctx).2 = tokenMatch ctx := by
    simp [tokenMatchInt, tokenMatchToken, hkind]
  rw [hrun]
  exact ⟨atoi_of_digits _ hne hdigits hfit, rfl, lexerNext_pending _,
    tokenMatch_location _, rfl⟩

/-- Instances of C15: on the integer tokens `42`, `007` and `2147483647`,
`tokenMatchInt` returns 42, 7 and 2147483647, with no error, and the cursor
reaches end-of-file. -/
theorem tokenMatchInt_success_witness :
    ((tokenMatchInt (ctxOnInt "42")).1 = 42 ∧
      (tokenMatchInt (ctxOnInt "42")).2.errors = 0 ∧
      (tokenMatchInt (ctxOnInt "42")).2.lexer.token = tokenEOF) ∧
    (tokenMatchInt (ctxOnInt "007")).1 = 7 ∧
    (tokenMatchInt (ctxOnInt "2147483647")).1 = 2147483647 := by
  have h1 := tokenMatchInt_success (ctxOnInt "42") (by decide) (by decide) (by decide)
    (by decide)
  have h2 := tokenMatchInt_success (ctxOnInt "007") (by decide) (by decide) (by decide)
    (by decide)
  have h3 := tokenMatchInt_success (ctxOnInt "2147483647") (by decide) (by decide)
    (by decide) (by decide)
  refine ⟨⟨?_, h1.2.2.2.2, by decide⟩, ?_, ?_⟩
  · rw [h1.1]; decide
  · rw [h2.1]; decide
  · rw [h3.1]; decide

/-! ### Diagnostics leave the cursor alone -/

theorem error_diagnosticOnly (ctx : parserCtx) (message : String) :
    diagnosticOnly ctx (error ctx message) :=
  ⟨rfl, rfl, rfl, rfl, rfl, errorLine ctx.location message, error_output ctx message⟩

theorem errorRedeclaredSymAs_returns (symTagGetStr : symTag → String) (ctx : parserCtx)
    (Symbol : sym) (tag : symTag) :
    (∀ ctx1, errorRedeclaredSymAs symTagGetStr ctx Symbol tag = some ctx1 →
      ∃ message, ctx1 = error ctx message) ∧
    (Symbol.decls ≠ [] → ∃ ctx1, errorRedeclaredSymAs symTagGetStr ctx Symbol tag = some ctx1) := by
  cases hd : Symbol.decls with
  | nil => simp [errorRedeclaredSymAs, vectorGet, hd]
  | cons first rest =>
    rw [errorRedeclaredSymAs_eq symTagGetStr ctx Symbol tag first rest hd]
    exact ⟨fun ctx1 h => ⟨_, (Option.some.inj h).symm⟩, fun _ => ⟨_, rfl⟩⟩

theorem errorReimplementedSym_returns (symTagGetStr : symTag → String) (ctx : parserCtx)
    (Symbol : sym) :
    (∀ ctx1, errorReimplementedSym symTagGetStr ctx Symbol = some ctx1 →
      ∃ message, ctx1 = error ctx message) ∧
    (Symbol.impl ≠ none → ∃ ctx1, errorReimplementedSym symTagGetStr ctx Symbol = some ctx1) := by
  cases hi : Symbol.impl with
  | none => simp [errorReimplementedSym, hi]
  | some impl =>
    rw [errorReimplementedSym_eq symTagGetStr ctx Symbol impl hi]
    exact ⟨fun ctx1 h => ⟨_, (Option.some.inj h).symm⟩, fun _ => ⟨_, rfl⟩⟩

/-- C16: the diagnostics that are not an expectation mismatch do not
resynchronize.  `errorUndefSym`, `errorUndefType`, `errorIllegalOutside`, and
`errorExpected` called on its own, leave the lexer (hence the current token),
the location and the scope as they were; all they change is `errors` (one more)
and standard output (text appended).  The same holds for `errorRedeclaredSymAs`
and `errorReimplementedSym` whenever they return, and they return when the
symbol has a first declaration, respectively an implementation node. -/
theorem diagnostics_leave_cursor (symTagGetStr : symTag → String) :
    (∀ (ctx : parserCtx) (Expected : String), diagnosticOnly ctx (errorExpected ctx Expected)) ∧
    (∀ ctx : parserCtx, diagnosticOnly ctx (errorUndefSym ctx)) ∧
    (∀ ctx : parserCtx, diagnosticOnly ctx (errorUndefType ctx)) ∧
    (∀ (ctx : parserCtx) (what place : String),
      diagnosticOnly ctx (errorIllegalOutside ctx what place)) ∧
    (∀ (ctx : parserCtx) (Symbol : sym) (tag : symTag),
      (∀ ctx1, errorRedeclaredSymAs symTagGetStr ctx Symbol tag = some ctx1 →
        diagnosticOnly ctx ctx1) ∧
      (Symbol.decls ≠ [] →
        ∃ ctx1, errorRedeclaredSymAs symTagGetStr ctx Symbol tag = some ctx1)) ∧
    (∀ (ctx : parserCtx) (Symbol : sym),
      (∀ ctx1, errorReimplementedSym symTagGetStr ctx Symbol = some ctx1 →
        diagnosticOnly ctx ctx1) ∧
      (Symbol.impl ≠ none →
        ∃ ctx1, errorReimplementedSym symTagGetStr ctx Symbol = some ctx1)) := by
  refine ⟨fun ctx _ => error_diagnosticOnly ctx _, fun ctx => error_diagnosticOnly ctx _,
    fun ctx => error_diagnosticOnly ctx _, fun ctx _ _ => error_diagnosticOnly ctx _, ?_, ?_⟩
  · intro ctx Symbol tag
    have h := errorRedeclaredSymAs_returns symTagGetStr ctx Symbol tag
    refine ⟨fun ctx1 h1 => ?_, h.2⟩
    obtain ⟨message, hm⟩ := h.1 ctx1 h1
    rw [hm]
    exact error_diagnosticOnly ctx message
  · intro ctx Symbol
    have h := errorReimplementedSym_returns symTagGetStr ctx Symbol
    refine ⟨fun ctx1 h1 => ?_, h.2⟩
    obtain ⟨message, hm⟩ := h.1 ctx1 h1
    rw [hm]
    exact error_diagnosticOnly ctx message

/-- Instances of C16 on `foo ( )` at `foo`: after `errorUndefSym`, and after
reporting the function `f` as reimplemented, the cursor is still on `foo` at
1:1, with one error counted; a failed `tokenMatchStr` in the same place has
moved on to `(`. -/
theorem diagnostics_leave_cursor_witness :
    ((errorUndefSym ctxFooParens).lexer.buffer = "foo" ∧
      (errorUndefSym ctxFooParens).location = { line := 1, lineChar := 1 } ∧
      (errorUndefSym ctxFooParens).errors = 1) ∧
    (∃ ctx1, errorReimplementedSym symTagName ctxFooParens symImplementedF = some ctx1 ∧
      ctx1.lexer.buffer = "foo" ∧ ctx1.location = { line := 1, lineChar := 1 } ∧
      ctx1.errors = 1) ∧
    (tokenMatchStr ctxFooParens ";").lexer.buffer = "(" := by
  have h := diagnostics_leave_cursor symTagName
  have h1 := h.2.1 ctxFooParens
  obtain ⟨ctx1, hr⟩ := (h.2.2.2.2.2 ctxFooParens symImplementedF).2 (by decide)
  have h2 := (h.2.2.2.2.2 ctxFooParens symImplementedF).1 ctx1 hr
  refine ⟨⟨?_, ?_, h1.2.2.2.2.1⟩, ⟨ctx1, hr, ?_, ?_, h2.2.2.2.2.1⟩, by decide⟩
  · rw [h1.1]; decide
  · rw [h1.2.1]; decide
  · rw [h2.1]; decide
  · rw [h2.2.1]; decide

/-- C17: for every symbol whose implementation node is set,
`errorReimplementedSym` returns, and what it has printed is exactly two lines:
`error(L:C): function '<ident>' reimplemented.` when the symbol's kind is
`symId`, `error(L:C): <name of the symbol's kind> '<ident>' reimplemented.` for
every other kind, and then `     (l:c): first implementation here.` with `l:c`
the line and column of the implementation node; `errors` has grown by exactly
1. -/
theorem errorReimplementedSym_diagnostic (symTagGetStr : symTag → String)
    (ctx : parserCtx) (Symbol : sym) (impl : ast) (himpl : Symbol.impl = some impl) :
    ∃ ctx1, errorReimplementedSym symTagGetStr ctx Symbol = some ctx1 ∧
      (Symbol.tag = symId →
        ctx1.output = ctx.output
          ++ reimplementedLine ctx.location "function" Symbol.ident
          ++ firstImplementationLine impl.location) ∧
      (Symbol.tag ≠ symId →
        ctx1.output = ctx.output
          ++ reimplementedLine ctx.location (symTagGetStr Symbol.tag) Symbol.ident
          ++ firstImplementationLine impl.location) ∧
      ctx1.errors = ctx.errors + 1 := by
  refine ⟨_, errorReimplementedSym_eq symTagGetStr ctx Symbol impl himpl, ?_, ?_, rfl⟩
  · intro htag
    rw [error_output, if_pos htag]
    simp only [errorLine, reimplementedLine, firstImplementationLine, String.append_assoc]
    rfl
  · intro htag
    rw [error_output, if_neg htag]
    simp only [errorLine, reimplementedLine, firstImplementationLine, String.append_assoc]
    rfl

/-- Instances of C17 with the cursor on `foo` at 1:1: the function `f`
(implemented at 7:5) and the struct `S` (implemented at 4:8). -/
theorem errorReimplementedSym_diagnostic_witness :
    (∃ ctx1, errorReimplementedSym symTagName ctxFooParens symImplementedF = some ctx1 ∧
      ctx1.output = "error(1:1): function 'f' reimplemented.\n"
        ++ "     (7:5): first implementation here.\n" ∧
      ctx1.errors = 1) ∧
    (∃ ctx1, errorReimplementedSym symTagName ctxFooParens symImplementedS = some ctx1 ∧
      ctx1.output = "error(1:1): struct 'S' reimplemented.\n"
        ++ "     (4:8): first implementation here.\n" ∧
      ctx1.errors = 1) := by
  obtain ⟨c1, h1, h1a, _, h1c⟩ := errorReimplementedSym_diagnostic symTagName ctxFooParens
    symImplementedF { location := { line := 7, lineChar := 5 } } rfl
  obtain ⟨c2, h2, _, h2b, h2c⟩ := errorReimplementedSym_diagnostic symTagName ctxFooParens
    symImplementedS { location := { line := 4, lineChar := 8 } } rfl
  refine ⟨⟨c1, h1, ?_, h1c⟩, ⟨c2, h2, ?_, h2c⟩⟩
  · rw [h1a (by decide)]; decide
  · rw [h2b (by decide)]; decide

/-! ### Display names of the token kinds -/

theorem tokenSkipMaybe_debugLog (ctx : parserCtx) :
    (tokenSkipMaybe ctx).debugLog = ctx.debugLog := by
  unfold tokenSkipMaybe
  split <;> rfl

theorem tokenTagGetStr_of_kind :
    ∀ p ∈ tokenKindNames, tokenTagGetStr p.1 = (p.2, []) ∧ p.2 ≠ "<unhandled>" := by
  decide

/-- C18: the display-name mapping is closed.  For each of the eight token
kinds (undefined, other, end-of-file, keyword, identifier, integer, string,
character) `tokenTagGetStr` returns that kind's fixed display name and does not
take the fallback branch: the name is not `<unhandled>`, does not contain it,
and nothing is reported to the debug module.  Consequently in `tokenMatchToken`'s
failure diagnostic for any of the eight kinds the expected-kind text is the
kind's display name, never `<unhandled>`: the line is
`error(L:C): expected <display name>, found '<raw text>'.`, and nothing goes to
the debug trace. -/
theorem tokenTagGetStr_closed :
    (∀ p ∈ tokenKindNames, tokenTagGetStr p.1 = (p.2, []) ∧ p.2 ≠ "<unhandled>") ∧
    (∀ (ctx : parserCtx), ∀ p ∈ tokenKindNames, ctx.lexer.token ≠ p.1 →
      (tokenMatchToken ctx p.1).output
        = ctx.output ++ ("error(" ++ fmtInt ctx.location.line ++ ":"
            ++ fmtInt ctx.location.lineChar ++ "): expected " ++ p.2
            ++ ", found '" ++ ctx.lexer.buffer ++ "'.\n") ∧
      (tokenMatchToken ctx p.1).debugLog = ctx.debugLog) ∧
    (∀ p ∈ tokenKindNames, ¬ ("<unhandled>".toList <:+: p.2.toList)) := by
  refine ⟨tokenTagGetStr_of_kind, ?_, by decide⟩
  intro ctx p hp hne
  have hname := (tokenTagGetStr_of_kind p hp).1
  have hrun : tokenMatchToken ctx p.1
      = tokenSkipMaybe (errorExpected
          { ctx with debugLog := ctx.debugLog ++ (tokenTagGetStr p.1).2 }
          (tokenTagGetStr p.1).1) := by
    simp [tokenMatchToken, hne]
  rw [hrun, hname]
  refine ⟨?_, ?_⟩
  · rw [(errorExpected_then_skip ctx
      { ctx with debugLog := ctx.debugLog ++ (p.2, ([] : List debugEvent)).2 }
      (p.2, ([] : List debugEvent)).1 rfl rfl rfl rfl).2.1]
    simp only [errorLine, String.append_assoc]
    rfl
  · rw [tokenSkipMaybe_debugLog]
    simp [errorExpected, error_debugLog]

/-- Instance of C18 on `foo ( )`: expecting an integer at `foo` prints
`error(1:1): expected integer, found 'foo'.` -/
theorem tokenTagGetStr_closed_witness :
    tokenTagGetStr tokenInt = ("integer", []) ∧
    (tokenMatchToken ctxFooParens tokenInt).output
      = "error(1:1): expected integer, found 'foo'.\n" ∧
    (tokenMatchToken ctxFooParens tokenInt).debugLog = [] := by
  have h := tokenTagGetStr_closed.2.1 ctxFooParens (tokenInt, "integer") (by decide)
    (by decide)
  refine ⟨(tokenTagGetStr_closed.1 (tokenInt, "integer") (by decide)).1, ?_, ?_⟩
  · rw [h.1]; decide
  · rw [h.2]; decide

/-! ### The bound scope -/

theorem tokenMatchKeyword_scope (ctx : parserCtx) (keyword : keywordTag) :
    (tokenMatchKeyword ctx keyword).scope = ctx.scope := by
  unfold tokenMatchKeyword
  split
  · rfl
  · simp only [tokenSkipMaybe_scope, errorExpected_scope]

theorem tokenMatchToken_scope (ctx : parserCtx) (Match : tokenTag) :
    (tokenMatchToken ctx Match).scope = ctx.scope := by
  unfold tokenMatchToken
  split
  · rfl
  · simp only [tokenSkipMaybe_scope, errorExpected_scope]

theorem tokenMatchStr_scope (ctx : parserCtx) (Match : String) :
    (tokenMatchStr ctx Match).scope = ctx.scope := by
  unfold tokenMatchStr
  split
  · rfl
  · simp only [tokenSkipMaybe_scope, errorExpected_scope]

theorem tokenTryMatchKeyword_scope (ctx : parserCtx) (keyword : keywordTag) :
    (tokenTryMatchKeyword ctx keyword).2.scope = ctx.scope := by
  unfold tokenTryMatchKeyword
  split <;> rfl

theorem tokenTryMatchStr_scope (ctx : parserCtx) (Match : String) :
    (tokenTryMatchStr ctx Match).2.scope = ctx.scope := by
  unfold tokenTryMatchStr
  split <;> rfl

theorem call_scope (p : matchPrimitive) (ctx : parserCtx) :
    (p.call ctx).scope = ctx.scope := by
  cases p with
  | matchKeyword keyword => exact tokenMatchKeyword_scope ctx keyword
  | tryMatchKeyword keyword => exact tokenTryMatchKeyword_scope ctx keyword
  | matchToken Match => exact tokenMatchToken_scope ctx Match
  | matchStr Match => exact tokenMatchStr_scope ctx Match
  | tryMatchStr Match => exact tokenTryMatchStr_scope ctx Match
  | matchInt => exact tokenMatchToken_scope ctx tokenInt
  | matchIdent => exact tokenMatchToken_scope ctx tokenIdent

theorem errorRedeclaredSymAs_scope (symTagGetStr : symTag → String) (ctx ctx1 : parserCtx)
    (Symbol : sym) (tag : symTag)
    (h : errorRedeclaredSymAs symTagGetStr ctx Symbol tag = some ctx1) :
    ctx1.scope = ctx.scope := by
  obtain ⟨message, hm⟩ := (errorRedeclaredSymAs_returns symTagGetStr ctx Symbol tag).1 ctx1 h
  rw [hm, error_scope]

theorem errorReimplementedSym_scope (symTagGetStr : symTag → String) (ctx ctx1 : parserCtx)
    (Symbol : sym) (h : errorReimplementedSym symTagGetStr ctx Symbol = some ctx1) :
    ctx1.scope = ctx.scope := by
  obtain ⟨message, hm⟩ := (errorReimplementedSym_returns symTagGetStr ctx Symbol).1 ctx1 h
  rw [hm, error_scope]

theorem perform_scope (symTagGetStr : symTag → String) (c : helperCall)
    (ctx ctx1 : parserCtx) (h : c.perform symTagGetStr ctx = some ctx1) :
    ctx1.scope = ctx.scope := by
  cases c with
  | redeclaredSymAs Symbol tag => exact errorRedeclaredSymAs_scope symTagGetStr ctx ctx1 _ _ h
  | reimplementedSym Symbol => exact errorReimplementedSym_scope symTagGetStr ctx ctx1 _ h
  | primitive p =>
    simp only [helperCall.perform, Option.some.injEq] at h
    rw [← h, call_scope]
  | skipMaybe =>
    simp only [helperCall.perform, Option.some.injEq] at h
    rw [← h, tokenSkipMaybe_scope]
  | next | matched | dupMatch | expected _ | undefSym | undefType | illegalOutside _ _ =>
    simp only [helperCall.perform, Option.some.injEq] at h
    rw [← h]
    rfl

theorem perform_defined (symTagGetStr : symTag → String) (c : helperCall)
    (ctx : parserCtx) (h : c.defined = true) :
    ∃ ctx1, c.perform symTagGetStr ctx = some ctx1 := by
  cases c with
  | redeclaredSymAs Symbol tag =>
    refine (errorRedeclaredSymAs_returns symTagGetStr ctx Symbol tag).2 ?_
    intro hnil
    simp [helperCall.defined, hnil] at h
  | reimplementedSym Symbol =>
    refine (errorReimplementedSym_returns symTagGetStr ctx Symbol).2 ?_
    intro hnone
    simp [helperCall.defined, hnone] at h
  | next | skipMaybe | matched | dupMatch | primitive _ | expected _ | undefSym | undefType
    | illegalOutside _ _ => exact ⟨_, rfl⟩

/-- C19: only `scopeSet` changes the bound scope.  `tokenNext`, `tokenSkipMaybe`,
`tokenMatch`, `tokenDupMatch`, each of the seven match primitives (matching or
not) and each `error*` function return a context whose `scope` is the one they
were given (for `errorRedeclaredSymAs` and `errorReimplementedSym`: whenever
they return); so after `scopeSet(ctx, s)` and any sequence of such calls that
runs to its end the bound scope is still `s`, and a sequence runs to its end
when every symbol reported as redeclared has a first declaration and every
symbol reported as reimplemented has an implementation node.  (The token
predicates only compute a truth value; they return no context.) -/
theorem scope_changed_by_scopeSet_only (symTagGetStr : symTag → String) :
    (∀ ctx : parserCtx,
      (tokenNext ctx).scope = ctx.scope ∧ (tokenSkipMaybe ctx).scope = ctx.scope ∧
      (tokenMatch ctx).scope = ctx.scope ∧ (tokenDupMatch ctx).2.scope = ctx.scope ∧
      (tokenMatchInt ctx).2.scope = ctx.scope ∧ (tokenMatchIdent ctx).2.scope = ctx.scope ∧
      (errorUndefSym ctx).scope = ctx.scope ∧ (errorUndefType ctx).scope = ctx.scope) ∧
    (∀ (ctx : parserCtx) (keyword : keywordTag),
      (tokenMatchKeyword ctx keyword).scope = ctx.scope ∧
      (tokenTryMatchKeyword ctx keyword).2.scope = ctx.scope) ∧
    (∀ (ctx : parserCtx) (Match : tokenTag), (tokenMatchToken ctx Match).scope = ctx.scope) ∧
    (∀ (ctx : parserCtx) (text : String),
      (tokenMatchStr ctx text).scope = ctx.scope ∧
      (tokenTryMatchStr ctx text).2.scope = ctx.scope ∧
      (error ctx text).scope = ctx.scope ∧
      (errorExpected ctx text).scope = ctx.scope) ∧
    (∀ (ctx : parserCtx) (what place : String),
      (errorIllegalOutside ctx what place).scope = ctx.scope) ∧
    (∀ (ctx ctx1 : parserCtx) (Symbol : sym) (tag : symTag),
      errorRedeclaredSymAs symTagGetStr ctx Symbol tag = some ctx1 → ctx1.scope = ctx.scope) ∧
    (∀ (ctx ctx1 : parserCtx) (Symbol : sym),
      errorReimplementedSym symTagGetStr ctx Symbol = some ctx1 → ctx1.scope = ctx.scope) ∧
    (∀ (calls : List helperCall) (ctx ctx1 : parserCtx),
      performAll symTagGetStr calls ctx = some ctx1 → ctx1.scope = ctx.scope) ∧
    (∀ (calls : List helperCall) (ctx ctx1 : parserCtx) (s : symScope),
      performAll symTagGetStr calls (scopeSet ctx s).2 = some ctx1 → ctx1.scope = s) ∧
    (∀ (calls : List helperCall) (ctx : parserCtx), (∀ c ∈ calls, c.defined = true) →
      ∃ ctx1, performAll symTagGetStr calls ctx = some ctx1) := by
  have hall : ∀ (calls : List helperCall) (ctx ctx1 : parserCtx),
      performAll symTagGetStr calls ctx = some ctx1 → ctx1.scope = ctx.scope := by
    intro calls
    induction calls with
    | nil =>
      intro ctx ctx1 h
      simp only [performAll, Option.some.injEq] at h
      rw [h]
    | cons c cs ih =>
      intro ctx ctx1 h
      simp only [performAll] at h
      cases hc : c.perform symTagGetStr ctx with
      | none => rw [hc] at h; cases h
      | some ctx2 =>
        rw [hc] at h
        rw [ih ctx2 ctx1 h, perform_scope symTagGetStr c ctx ctx2 hc]
  refine ⟨fun ctx => ⟨rfl, tokenSkipMaybe_scope ctx, rfl, rfl, tokenMatchToken_scope ctx tokenInt,
      tokenMatchToken_scope ctx tokenIdent, rfl, rfl⟩,
    fun ctx keyword => ⟨tokenMatchKeyword_scope ctx keyword,
      tokenTryMatchKeyword_scope ctx keyword⟩,
    tokenMatchToken_scope,
    fun ctx text => ⟨tokenMatchStr_scope ctx text, tokenTryMatchStr_scope ctx text, rfl, rfl⟩,
    fun _ _ _ => rfl,
    fun ctx ctx1 Symbol tag h => errorRedeclaredSymAs_scope symTagGetStr ctx ctx1 Symbol tag h,
    fun ctx ctx1 Symbol h => errorReimplementedSym_scope symTagGetStr ctx ctx1 Symbol h,
    hall, ?_, ?_⟩
  · intro calls ctx ctx1 s h
    rw [hall calls _ ctx1 h]
    rfl
  · intro calls
    induction calls with
    | nil => exact fun ctx _ => ⟨ctx, rfl⟩
    | cons c cs ih =>
      intro ctx hdef
      obtain ⟨ctx2, hc⟩ := perform_defined symTagGetStr c ctx
        (hdef c (List.mem_cons_self c cs))
      obtain ⟨ctx1, h1⟩ := ih ctx2 (fun d hd => hdef d (List.mem_cons_of_mem c hd))
      exact ⟨ctx1, by simp only [performAll, hc, h1]⟩

/-- Instance of C19 on `foo ( )`: after binding a scope that holds the typedef
`T`, a failed keyword match, a successful `tokenMatchStr`, `errorUndefSym`, the
report of `f` as reimplemented and a `tokenSkipMaybe` run to their end, and the
bound scope is still the one with `T`. -/
theorem scope_changed_by_scopeSet_only_witness :
    ∃ ctx1,
      performAll symTagName
        [ .primitive (.matchKeyword keywordInt), .primitive (.matchStr "("), .undefSym,
          .reimplementedSym symImplementedF, .skipMaybe ]
        (scopeSet ctxFooParens [[symDeclared symTypedef "T"]]).2 = some ctx1 ∧
      ctx1.scope = [[symDeclared symTypedef "T"]] ∧ ctx1.errors = 3 := by
  have h := scope_changed_by_scopeSet_only symTagName
  obtain ⟨ctx1, h1⟩ := h.2.2.2.2.2.2.2.2.2
    [ .primitive (.matchKeyword keywordInt), .primitive (.matchStr "("), .undefSym,
      .reimplementedSym symImplementedF, .skipMaybe ]
    (scopeSet ctxFooParens [[symDeclared symTypedef "T"]]).2 (by decide)
  refine ⟨ctx1, h1, h.2.2.2.2.2.2.2.2.1 _ ctxFooParens ctx1 _ h1, ?_⟩
  have h2 : performAll symTagName
      [ .primitive (.matchKeyword keywordInt), .primitive (.matchStr "("), .undefSym,
        .reimplementedSym symImplementedF, .skipMaybe ]
      (scopeSet ctxFooParens [[symDeclared symTypedef "T"]]).2
      = some ctx1 := h1
  have h3 : (performAll symTagName
      [ .primitive (.matchKeyword keywordInt), .primitive (.matchStr "("), .undefSym,
        .reimplementedSym symImplementedF, .skipMaybe ]
      (scopeSet ctxFooParens [[symDeclared symTypedef "T"]]).2).map (fun c => c.errors)
      = some 3 := by decide
  rw [h2] at h3
  exact Option.some.inj h3

end Fcc
